import Mathlib

/-!
Verification of the product-enrichment core of the `gestion_stock` repository.

Each definition below is a shallow embedding of a Python function from
`src/inventory/` (the embedded source location is given in the doc comment).
External effects (HTTP calls, the AI text generator, PIL image decoding,
file storage) are modelled as explicit oracle parameters; machine strings
are modelled on their ASCII fragment, where Python's NFKD-decompose /
strip-combining step is the identity.
-/

namespace GestionStock

/-- ASCII lowercase of one character, as Python `str.lower` acts on ASCII. -/
def pyLowerChar (c : Char) : Char :=
  if 64 < c.toNat ∧ c.toNat < 91 then Char.ofNat (c.toNat + 32) else c

/-- ASCII alphanumeric test, the class `[0-9A-Za-z]` of `_normalize`. -/
def isAsciiAlnum (c : Char) : Bool :=
  (47 < c.toNat && c.toNat < 58) || (64 < c.toNat && c.toNat < 91) ||
    (96 < c.toNat && c.toNat < 123)

/-- ASCII whitespace, the characters Python `str.strip()` removes. -/
def isPySpace (c : Char) : Bool :=
  c = ' ' || c = '\t' || c = '\n' || c = '\r' || c.toNat = 11 || c.toNat = 12

/-- Python `str.strip()` on the ASCII fragment. -/
def pyStrip (s : String) : String :=
  String.mk (((s.data.dropWhile isPySpace).reverse.dropWhile isPySpace).reverse)

/-- Split a character list at every occurrence of `sep` (groups kept in
order, possibly empty). -/
def splitChar (sep : Char) : List Char → List (List Char)
  | [] => [[]]
  | c :: rest =>
      match splitChar sep rest with
      | [] => [[]]
      | g :: gs => if c = sep then [] :: g :: gs else (c :: g) :: gs

/-- Join strings with a separator. -/
def intercalateStr (sep : String) : List String → String
  | [] => ""
  | [x] => x
  | x :: y :: rest => x ++ sep ++ intercalateStr sep (y :: rest)

/-- Split a string on spaces and drop empty pieces — Python `str.split()`. -/
def pyTokens (s : String) : List String :=
  ((splitChar ' ' s.data).map String.mk).filter (fun t => t ≠ "")

/-- `inventory/category_auto.py::_normalize`: replace every run of
non-alphanumeric characters by a space, lowercase, and re-join the words
with single spaces.  (The NFKD/combining-mark step of the source is the
identity on the ASCII fragment modelled here.) -/
def pyNormalize (s : String) : String :=
  let mapped := String.mk (s.data.map (fun c => if isAsciiAlnum c then pyLowerChar c else ' '))
  intercalateStr " " (pyTokens mapped)

/-- Strict lexicographic order on character lists by code point, the order
Python uses to compare `str` values inside tuples. -/
def chListLt : List Char → List Char → Bool
  | [], [] => false
  | [], _ :: _ => true
  | _ :: _, [] => false
  | a :: as, b :: bs =>
      if a.toNat < b.toNat then true
      else if b.toNat < a.toNat then false
      else chListLt as bs

/-- Python `<` on strings. -/
def strLtB (a b : String) : Bool := chListLt a.data b.data

/-- Does `pat` occur at the head of `l`? (helper for substring search). -/
def leadsList : List Char → List Char → Bool
  | [], _ => true
  | _ :: _, [] => false
  | a :: as, b :: bs => a = b && leadsList as bs

/-- Python `needle in hay` on character lists. -/
def occursIn (needle : List Char) : List Char → Bool
  | [] => leadsList needle []
  | c :: rest => leadsList needle (c :: rest) || occursIn needle rest

/-- Python substring containment `needle in hay` on strings. -/
def strContains (hay needle : String) : Bool := occursIn needle.data hay.data

/-! ## Category rule engine — `inventory/category_auto.py` -/

/-- A compiled regex of a rule: its source pattern (whose length feeds the
score) and its match behaviour `search`, modelled as an oracle. -/
structure RegexPat where
  pattern : String
  search : String → Bool

/-- `category_auto.py::Rule` — the target category is represented by its
name, which is all `_pick_best_rule` reads from it. -/
structure Rule where
  categoryName : String
  keywords : List String
  regexes : List RegexPat

/-- `Rule.score(raw_text, normalized_text, tokens)`: every regex hit adds
`3 × len(pattern)`; every keyword hit adds `len(keyword)` (+2 when the
normalized keyword holds a space, i.e. is a phrase); returns
`(score, matched_terms, best_term_length)`. -/
def Rule.score (r : Rule) (rawText : String) (normalizedText : String)
    (tokens : List String) : Nat × Nat × Nat :=
  let fromRegex := r.regexes.foldl
    (fun (acc : Nat × Nat × Nat) p =>
      if p.search rawText then
        let tl := p.pattern.length
        (acc.1 + tl * 3, acc.2.1 + 1, max acc.2.2 tl)
      else acc)
    (0, 0, 0)
  r.keywords.foldl
    (fun (acc : Nat × Nat × Nat) kw =>
      let n := pyNormalize kw
      if n = "" then acc
      else
        let isPhrase := strContains n " "
        let matched := if isPhrase then strContains normalizedText n else tokens.contains n
        if matched then
          let tl := n.length
          let base : Nat × Nat × Nat := (acc.1 + tl, acc.2.1 + 1, max acc.2.2 tl)
          if isPhrase then (base.1 + 2, base.2.1, base.2.2) else base
        else acc)
    fromRegex

/-- The four-component signature `(score, matched_terms, best_term_length,
normalized category name)` that `_pick_best_rule` compares. -/
structure Sig where
  score : Nat
  matched : Nat
  bestLen : Nat
  name : String

/-- Python tuple `>` on signatures (lexicographic, strings by `<`). -/
def sigGt (a b : Sig) : Bool :=
  if a.score ≠ b.score then decide (b.score < a.score)
  else if a.matched ≠ b.matched then decide (b.matched < a.matched)
  else if a.bestLen ≠ b.bestLen then decide (b.bestLen < a.bestLen)
  else strLtB b.name a.name

/-- The signature a rule contributes for a given text. -/
def ruleSig (r : Rule) (rawText normalizedText : String) (tokens : List String) : Sig :=
  let s := r.score rawText normalizedText tokens
  ⟨s.1, s.2.1, s.2.2, pyNormalize r.categoryName⟩

/-- The initial value `best_signature = (0, 0, 0, "")`. -/
def initSig : Sig := ⟨0, 0, 0, ""⟩

/-- One step of the `_pick_best_rule` loop. -/
def pickStep (rawText normalizedText : String) (tokens : List String)
    (acc : Option Rule × Sig) (r : Rule) : Option Rule × Sig :=
  let sig := ruleSig r rawText normalizedText tokens
  if sigGt sig acc.2 then (some r, sig) else acc

/-- `category_auto.py::_pick_best_rule`. -/
def pickBestRule (rules : List Rule) (rawText : String) : Option Rule :=
  let nt := pyNormalize rawText
  let tokens := pyTokens nt
  (rules.foldl (pickStep rawText nt tokens) ((none : Option Rule), initSig)).1

/-! ## Daily quota tracker — `inventory/bot.py::_DailyQuota` -/

/-- The persisted counter `{date, count}`; `date = none` models a missing
or unreadable counter file (`_read` returns `{}`). -/
structure QuotaData where
  date : Option String
  count : Nat
deriving DecidableEq, Repr

/-- The empty / unreadable counter file. -/
def emptyQuota : QuotaData := ⟨none, 0⟩

/-- `_DailyQuota.reserve`: reject when the daily limit is ≤ 0; reset the
in-memory counter when the stored date differs from today; reject when the
count has reached the limit (nothing persisted on a rejection); otherwise
increment, persist, accept.  Returns (accepted, persisted counter). -/
def DailyQuota.reserve (dailyLimit : Int) (today : String) (stored : QuotaData) :
    Bool × QuotaData :=
  if dailyLimit ≤ 0 then (false, stored)
  else
    let data := if stored.date ≠ some today then (⟨some today, 0⟩ : QuotaData) else stored
    if dailyLimit ≤ (data.count : Int) then (false, stored)
    else (true, ⟨some today, data.count + 1⟩)

/-- `n` consecutive `reserve()` calls against the same persisted file on
the same day; returns the outcome list and the final persisted counter. -/
def DailyQuota.reserveRun (dailyLimit : Int) (today : String) :
    Nat → QuotaData → List Bool × QuotaData
  | 0, stored => ([], stored)
  | n + 1, stored =>
      let r := DailyQuota.reserve dailyLimit today stored
      let rest := DailyQuota.reserveRun dailyLimit today n r.2
      (r.1 :: rest.1, rest.2)

/-! ## Enrichment job reservation — `inventory/product_asset.py` -/

/-- `models.ProductAssetJob.Status`. -/
inductive JobStatus | queued | running | success | failed
deriving DecidableEq, Repr

/-- The fields of `models.ProductAssetJob` that the orchestrator reads or
writes (identity, target, state, request parameters, outcome). -/
structure AssetJob where
  id : Nat
  productId : Nat
  status : JobStatus
  assets : List String
  forceDescription : Bool
  forceImage : Bool
  forceTechsheet : Bool
  forcePdf : Bool
  forceVideos : Bool
  forceBlog : Bool
  lastMessage : String
  processedProducts : Nat
  descriptionChanged : Bool
  imageChanged : Bool
deriving DecidableEq, Repr

/-- The request parameters of `reserve_product_asset_job`. -/
structure JobRequest where
  assets : List String
  forceDescription : Bool
  forceImage : Bool
  forceTechsheet : Bool
  forcePdf : Bool
  forceVideos : Bool
  forceBlog : Bool
deriving DecidableEq, Repr

/-- `product_asset.py::get_pending_product_asset_job`: the first job of the
table whose product matches and whose status is queued or running. -/
def getPendingProductAssetJob (db : List AssetJob) (productId : Nat) : Option AssetJob :=
  (db.filter (fun j =>
    j.productId = productId ∧ (j.status = JobStatus.queued ∨ j.status = JobStatus.running))).head?

/-- The merge branch of `reserve_product_asset_job`: the request's asset
list replaces the pending one when non-empty and different; each force
flag is OR'd in; the message is refreshed only when something changed. -/
def mergeJobRequest (pending : AssetJob) (req : JobRequest) : AssetJob :=
  let newAssets := if req.assets ≠ [] ∧ pending.assets ≠ req.assets then req.assets
    else pending.assets
  let merged : AssetJob :=
    { pending with
      assets := newAssets
      forceDescription := pending.forceDescription || req.forceDescription
      forceImage := pending.forceImage || req.forceImage
      forceTechsheet := pending.forceTechsheet || req.forceTechsheet
      forcePdf := pending.forcePdf || req.forcePdf
      forceVideos := pending.forceVideos || req.forceVideos
      forceBlog := pending.forceBlog || req.forceBlog }
  if merged ≠ pending then { merged with lastMessage := "Parametres de traitement mis a jour." }
  else pending

/-- `product_asset.py::create_product_asset_job` (fresh queued row). -/
def createProductAssetJob (newId productId : Nat) (req : JobRequest) : AssetJob :=
  { id := newId
    productId := productId
    status := JobStatus.queued
    assets := req.assets
    forceDescription := req.forceDescription
    forceImage := req.forceImage
    forceTechsheet := req.forceTechsheet
    forcePdf := req.forcePdf
    forceVideos := req.forceVideos
    forceBlog := req.forceBlog
    lastMessage := "En file d attente."
    processedProducts := 0
    descriptionChanged := false
    imageChanged := false }

/-- Persist an updated row: replace the rows carrying its primary key. -/
def saveJob (db : List AssetJob) (updated : AssetJob) : List AssetJob :=
  db.map (fun j => if j.id = updated.id then updated else j)

/-- `product_asset.py::reserve_product_asset_job`: when a queued/running
job for the product exists, merge the request into it (no new row);
otherwise append a fresh queued row.  Returns (table, job, created). -/
def reserveProductAssetJob (db : List AssetJob) (newId productId : Nat)
    (req : JobRequest) : List AssetJob × AssetJob × Bool :=
  match getPendingProductAssetJob db productId with
  | some pending =>
      let merged := mergeJobRequest pending req
      (saveJob db merged, merged, false)
  | none =>
      let job := createProductAssetJob newId productId req
      (db ++ [job], job, true)

/-! ## Datasheet result scoring — `inventory/datasheets.py` -/

/-- ASCII uppercase of one character, as Python `str.upper` acts on ASCII. -/
def pyUpperChar (c : Char) : Char :=
  if 96 < c.toNat ∧ c.toNat < 123 then Char.ofNat (c.toNat - 32) else c

/-- Python `str.lower()` on the ASCII fragment. -/
def pyLower (s : String) : String := String.mk (s.data.map pyLowerChar)

/-- Membership in the class `[A-Z0-9]`. -/
def isUpperAlnum (c : Char) : Bool :=
  (47 < c.toNat && c.toNat < 58) || (64 < c.toNat && c.toNat < 91)

/-- `datasheets.py::_normalize_model`: uppercase and keep only `[A-Z0-9]`
(the hyphen replacements and the strip are subsumed by the final filter). -/
def normalizeModel (value : String) : String :=
  String.mk ((value.data.map pyUpperChar).filter (fun c => isUpperAlnum c))

/-- Python `str.endswith`. -/
def endsWithB (s suffixStr : String) : Bool :=
  leadsList suffixStr.data.reverse s.data.reverse

/-- One Google-CSE-shaped search hit `{link, title, snippet, mime}`;
`link = none` models a hit whose `link` key is absent. -/
structure SearchItem where
  link : Option String
  title : String
  snippet : String
  mime : String

/-- One `score += k if <boolean check>` step of `score_result`. -/
def addIfB (b : Bool) (k s : Int) : Int := if b then s + k else s

/-- One `score += k if <string equality>` step of `score_result`. -/
def addIfP (p : Prop) [Decidable p] (k s : Int) : Int := if p then s + k else s

/-- The language-preference bonus block of `score_result`. -/
def langBonus (preferLang url blob : String) (s : Int) : Int :=
  if preferLang = "fr" then addIfB (strContains url "/fr/" || strContains blob "fiche") 10 s
  else if preferLang = "en" then
    addIfB (strContains url "/en/" || strContains blob "datasheet") 10 s
  else s

/-- `datasheets.py::score_result` — the weighted heuristic over one hit,
as the chain of its `score +=` / `score -=` steps (innermost first):
+50 pdf-looking URL, +15 pdf mime, +30 vendor domain, +20 datasheet
keywords, +50 normalized model match, +10 language bonus, −40 firmware,
−20 manual. -/
def score_result (item : SearchItem) (model : String) (preferLang : String) : Int :=
  let url := pyLower (item.link.getD "")
  let title := pyLower item.title
  let snippet := pyLower item.snippet
  let blob := url ++ " " ++ title ++ " " ++ snippet
  let nm := normalizeModel model
  addIfB (strContains blob "manual" || strContains blob "user manual") (-20)
    (addIfB (strContains blob "firmware") (-40)
      (langBonus preferLang url blob
        (addIfP (nm ≠ "" ∧ strContains (normalizeModel (url ++ title)) nm = true) 50
          (addIfB (strContains blob "datasheet" || strContains blob "data sheet" ||
              strContains blob "fiche") 20
            (addIfB (strContains url "hikvision.com") 30
              (addIfP (pyLower item.mime = "application/pdf") 15
                (addIfB (endsWithB url ".pdf" || strContains url ".pdf?") 50 0)))))))

/-- One step of the `pick_best_pdf` loop. -/
def pickPdfStep (model preferLang : String) (acc : Option String × Int)
    (item : SearchItem) : Option String × Int :=
  let s := score_result item model preferLang
  if acc.2 < s then (item.link, s) else acc

/-- `datasheets.py::pick_best_pdf`: keep the strictly-best-scoring hit,
starting from score `-10^9`; the first hit reaching the best score wins. -/
def pick_best_pdf (items : List SearchItem) (model : String)
    (preferLang : String) : Option String :=
  (items.foldl (pickPdfStep model preferLang) ((none : Option String), -(10 ^ 9 : Int))).1

/-! ## Image search router — `inventory/bot.py::ProductAssetBot._find_search_image` -/

/-- A provider call recorded in the router's trace. -/
inductive ProviderCall
  | google (query : String)
  | serper (query : String)
deriving DecidableEq, Repr

/-- The router's environment: each configured provider is an oracle from a
query to an optional result URL (`none` per provider when it is not
configured, mirroring `self.google_search` / `self.serper_search`). -/
structure RouterEnv where
  google : Option (String → Option String)
  serper : Option (String → Option String)

/-- The query loop of `_find_search_image`: for each query try Google
first, returning on a hit; otherwise try Serper on the same query,
returning on a hit; otherwise move to the next query.  Returns the list of
provider calls made and the result `(url, source)`. -/
def findSearchImageGo (env : RouterEnv) : List String → List ProviderCall × Option (String × String)
  | [] => ([], none)
  | q :: rest =>
      let gRes : Option String := match env.google with
        | some g => g q
        | none => none
      let gCalls : List ProviderCall := match env.google with
        | some _ => [ProviderCall.google q]
        | none => []
      match gRes with
      | some url => (gCalls, some (url, "google"))
      | none =>
          let sRes : Option String := match env.serper with
            | some s => s q
            | none => none
          let sCalls : List ProviderCall := match env.serper with
            | some _ => [ProviderCall.serper q]
            | none => []
          match sRes with
          | some url => (gCalls ++ sCalls, some (url, "serper"))
          | none =>
              let r := findSearchImageGo env rest
              (gCalls ++ sCalls ++ r.1, r.2)

/-- `_find_search_image` body: no queries yields no calls and no result;
otherwise at most `max(max_tries, 1)` queries are tried in order. -/
def findSearchImage (env : RouterEnv) (queries : List String) (maxTries : Nat) :
    List ProviderCall × Option (String × String) :=
  if queries = [] then ([], none)
  else findSearchImageGo env (queries.take (max maxTries 1))

/-! ## Product model — the fields of `inventory/models.py::Product` that the
enrichment core reads or mutates.  File fields are `Option String` holding
the stored name (`none` = empty field); timestamps are omitted. -/

/-- The JSON value of `Product.tech_specs_json`, as far as
`ProductQualityAgent._spec_count` inspects it: a dict (entry values
restricted to the string/None fragment the count distinguishes), a list
(only each item's truthiness matters), or anything else. -/
inductive TechSpecs
  | dictVal (entries : List (String × Option String))
  | listVal (items : List Bool)
  | otherVal

/-- The enrichment-relevant slice of `Product`. -/
structure Product where
  id : Nat
  sku : String
  name : String
  manufacturerReference : String
  barcode : String
  description : String
  shortDescription : String
  longDescription : String
  techSpecs : TechSpecs
  videoLinks : String
  image : Option String
  imageIsPlaceholder : Bool
  pendingImage : Option String
  pendingImageIsPlaceholder : Bool
  datasheetUrl : String
  datasheetPdf : Bool

/-- Which image field `ensure_image` targets (`image_field` argument). -/
inductive ImageField | live | pending
deriving DecidableEq, Repr

/-- Read the targeted image field. -/
def getImageField (p : Product) : ImageField → Option String
  | ImageField.live => p.image
  | ImageField.pending => p.pendingImage

/-- Read the placeholder flag paired with the targeted field. -/
def getPlaceholderFlag (p : Product) : ImageField → Bool
  | ImageField.live => p.imageIsPlaceholder
  | ImageField.pending => p.pendingImageIsPlaceholder

/-- Write the targeted image field. -/
def setImageField (p : Product) (f : ImageField) (v : Option String) : Product :=
  match f with
  | ImageField.live => { p with image := v }
  | ImageField.pending => { p with pendingImage := v }

/-- Write the placeholder flag paired with the targeted field. -/
def setPlaceholderFlag (p : Product) (f : ImageField) (v : Bool) : Product :=
  match f with
  | ImageField.live => { p with imageIsPlaceholder := v }
  | ImageField.pending => { p with pendingImageIsPlaceholder := v }

/-! ## Image acquisition — `inventory/bot.py::ProductAssetBot.ensure_image` -/

/-- The downloaded response, as far as `_is_image_response` and the save
step inspect it. -/
structure DownloadResp where
  contentNonempty : Bool
  contentType : String

/-- `ProductAssetBot._is_image_response`: non-empty body, and any declared
content type must start with `image/`. -/
def isImageResponse (r : DownloadResp) : Bool :=
  r.contentNonempty &&
    (pyLower r.contentType = "" || leadsList "image/".data (pyLower r.contentType).data)

/-- The suffix after the first occurrence of `marker`, when present. -/
def afterFirst (marker : List Char) : List Char → Option (List Char)
  | [] => none
  | c :: rest =>
      if leadsList marker (c :: rest) then some ((c :: rest).drop marker.length)
      else afterFirst marker rest

/-- The `netloc` of `urllib.parse.urlparse`, lowercased as
`_is_placeholder_url` does: the segment after the first `://` (or a
leading `//`), up to the next `/`, `?` or `#`; empty otherwise. -/
def urlHost (u : String) : String :=
  match afterFirst "://".data u.data with
  | some rest =>
      pyLower (String.mk (rest.takeWhile (fun c => c ≠ '/' ∧ c ≠ '?' ∧ c ≠ '#')))
  | none =>
      if leadsList "//".data u.data then
        pyLower (String.mk ((u.data.drop 2).takeWhile (fun c => c ≠ '/' ∧ c ≠ '?' ∧ c ≠ '#')))
      else ""

/-- `ProductAssetBot._is_placeholder_url`: host behind the URL is on the
placeholder-domain blacklist. -/
def isPlaceholderUrl (placeholderDomains : List String) (u : String) : Bool :=
  placeholderDomains.contains (urlHost u)

/-- The environment of `ensure_image`: the settings-derived configuration
and its external effects as oracles (`findLocalImage` is the filesystem
scan `_find_local_image` returning the media-relative name; `templateUrl`
is `_build_image_url`; `download` is the HTTP GET, `none` meaning a
request exception; `mkFilename` is `_build_image_filename`). -/
structure ImageEnv where
  allowPlaceholders : Bool
  placeholderDomains : List String
  router : RouterEnv
  buildQueries : Product → List String
  maxTries : Nat
  findLocalImage : Product → Option String
  templateUrl : Product → Option String
  download : String → Option DownloadResp
  mkFilename : Product → String → String

/-- The candidate URL of `ensure_image` once no local file was found: the
search router's hit, else the configured template URL. -/
def candidateImageUrl (env : ImageEnv) (p : Product) : Option String :=
  match (findSearchImage env.router (env.buildQueries p) env.maxTries).2 with
  | some r => some r.1
  | none => env.templateUrl p

/-- `ProductAssetBot.ensure_image`: skip when the field is already set
(unless forced or flagged placeholder); prefer a local media file (which
clears the placeholder flag); otherwise search / fall back to the template
URL, reject blacklisted placeholder hosts unless allowed, download and
validate, store the file and record whether the accepted URL was a
placeholder.  Returns the product and the `changed` flag. -/
def ensureImage (env : ImageEnv) (p : Product) (force : Bool) (field : ImageField) :
    Product × Bool :=
  if (getImageField p field).isSome ∧ ¬ force ∧ ¬ getPlaceholderFlag p field then (p, false)
  else
    match env.findLocalImage p with
    | some relName =>
        if getImageField p field = some relName then (p, false)
        else (setPlaceholderFlag (setImageField p field (some relName)) field false, true)
    | none =>
        match candidateImageUrl env p with
        | none => (p, false)
        | some u =>
            let isPh := isPlaceholderUrl env.placeholderDomains u
            if isPh ∧ ¬ env.allowPlaceholders then (p, false)
            else
              match env.download u with
              | none => (p, false)
              | some resp =>
                  if ¬ isImageResponse resp then (p, false)
                  else
                    (setPlaceholderFlag
                      (setImageField p field (some (env.mkFilename p u))) field isPh, true)

/-! ## Asset generation facade — `inventory/bot.py::ProductAssetBot.ensure_assets` -/

/-- Python `str.strip()` followed by `str.lower()` on one asset entry. -/
def normalizeAssetItem (s : String) : String := pyLower (pyStrip s)

/-- `ProductAssetBot._normalize_assets`: `None` or an empty/all-falsy list
yields the default `{description, images}`; otherwise the set of trimmed,
lowercased non-empty entries (modelled as a first-occurrence-deduplicated
list — only membership is consumed). -/
def normalizeAssets (assets : Option (List String)) : List String :=
  match assets with
  | none => ["description", "images"]
  | some items =>
      if items = [] then ["description", "images"]
      else
        let normalized := ((items.filter (fun i => i ≠ "")).map normalizeAssetItem).dedup
        if normalized = [] then ["description", "images"] else normalized

/-- The per-kind generators of `ProductAssetBot` as oracles: each one talks
to an external capability (AI text generation, image search / download,
datasheet storage) and returns the possibly-updated product plus its
change flags.  `ensure_image` is additionally embedded concretely above as
`ensureImage`. -/
structure BotEnv where
  ensureDescriptions : Product → Bool → Product × (Bool × Bool × Bool)
  ensureImage : Product → Bool → ImageField → Product × Bool
  ensureTechSpecs : Product → Bool → Product × Bool
  ensurePdfBrochures : Product → Bool → Product × Bool
  ensureVideoLinks : Product → Bool → Product × Bool
  ensureBlogPost : Product → Bool → Product × Bool

/-- The force flags of one enrichment request. -/
structure ForceFlags where
  description : Bool
  image : Bool
  techsheet : Bool
  pdf : Bool
  videos : Bool
  blog : Bool
deriving DecidableEq, Repr

/-- `ProductAssetBot.ensure_assets`: normalize the requested kinds, then
run each recognized generator in the fixed declared order, accumulating
the change-set (an insertion-ordered dict). -/
def ensureAssets (env : BotEnv) (p : Product) (assets : Option (List String))
    (force : ForceFlags) (field : ImageField) : Product × List (String × Bool) :=
  let assetSet := normalizeAssets assets
  let st0 : Product × List (String × Bool) := (p, [])
  let st1 :=
    if assetSet.contains "description" then
      let r := env.ensureDescriptions st0.1 force.description
      (r.1, st0.2 ++ [("short_description_changed", r.2.1),
        ("long_description_changed", r.2.2.1), ("description_changed", r.2.2.2)])
    else st0
  let st2 :=
    if assetSet.contains "images" then
      let r := env.ensureImage st1.1 force.image field
      (r.1, st1.2 ++ [("image_changed", r.2)])
    else st1
  let st3 :=
    if assetSet.contains "techsheet" then
      let r := env.ensureTechSpecs st2.1 force.techsheet
      (r.1, st2.2 ++ [("tech_specs_changed", r.2)])
    else st2
  let st4 :=
    if assetSet.contains "pdf" then
      let r := env.ensurePdfBrochures st3.1 force.pdf
      (r.1, st3.2 ++ [("pdf_changed", r.2)])
    else st3
  let st5 :=
    if assetSet.contains "videos" then
      let r := env.ensureVideoLinks st4.1 force.videos
      (r.1, st4.2 ++ [("videos_changed", r.2)])
    else st4
  if assetSet.contains "blog" then
    let r := env.ensureBlogPost st5.1 force.blog
    (r.1, st5.2 ++ [("blog_changed", r.2)])
  else st5

/-- Look a flag up in a change-set, defaulting to `False` —
`changes.get(key, False)`. -/
def changeFlag (changes : List (String × Bool)) (key : String) : Bool :=
  match changes.find? (fun c => c.1 = key) with
  | some c => c.2
  | none => false

/-! ## Job orchestrator — `inventory/product_asset.py::run_product_asset_bot`
and the worker loop of `inventory/background.py`. -/

/-- The persistent state the orchestrator touches. -/
structure OrchWorld where
  products : List Product
  jobs : List AssetJob

/-- `Product.objects.filter(pk=product_id).first()`. -/
def findProduct (products : List Product) (productId : Nat) : Option Product :=
  (products.filter (fun p => p.id = productId)).head?

/-- `ProductAssetJob.objects.filter(pk=job_id).first()` (no lookup when no
job id was passed). -/
def findJob (jobs : List AssetJob) : Option Nat → Option AssetJob
  | none => none
  | some jobId => (jobs.filter (fun j => j.id = jobId)).head?

/-- `product_asset.py::_start_job`: idempotent transition to `running`. -/
def startJob (j : AssetJob) : AssetJob :=
  if j.status = JobStatus.running then j
  else { j with status := JobStatus.running, lastMessage := "En cours..." }

/-- `product_asset.py::_finalize_job` (timestamps omitted). -/
def finalizeJob (j : AssetJob) (success : Bool) (message : String)
    (descriptionChanged imageChanged : Bool) : AssetJob :=
  { j with
    status := if success then JobStatus.success else JobStatus.failed
    processedProducts := 1
    lastMessage := message
    descriptionChanged := descriptionChanged
    imageChanged := imageChanged }

/-- Persist an updated product row. -/
def saveProduct (products : List Product) (p : Product) : List Product :=
  products.map (fun q => if q.id = p.id then p else q)

/-- `product_asset.py::run_product_asset_bot`: load job and product; a
missing product finalizes the job `failed`; otherwise start the job, run
the facade, persist changed fields, and finalize — `success` is set in
both the changed and the nothing-to-update branch.  Returns the world and
the finalized (or failed) job when one was attached. -/
def runProductAssetBot (env : BotEnv) (w : OrchWorld) (productId : Nat)
    (jobId : Option Nat) (assets : Option (List String)) (force : ForceFlags)
    (previewImage : Bool) : OrchWorld × Option AssetJob :=
  let job := findJob w.jobs jobId
  match findProduct w.products productId with
  | none =>
      match job with
      | some j =>
          let j2 := finalizeJob j false ("Produit " ++ toString productId ++ " introuvable.") false false
          ({ w with jobs := saveJob w.jobs j2 }, some j2)
      | none => (w, none)
  | some product =>
      let jobsStarted := match job with
        | some j => saveJob w.jobs (startJob j)
        | none => w.jobs
      let field := if previewImage then ImageField.pending else ImageField.live
      let r := ensureAssets env product assets force field
      let changes := r.2
      let descriptionChanged := changeFlag changes "description_changed"
      let imageChanged := changeFlag changes "image_changed"
      let anyField := descriptionChanged || imageChanged ||
        changeFlag changes "short_description_changed" ||
        changeFlag changes "long_description_changed" ||
        changeFlag changes "tech_specs_changed" || changeFlag changes "videos_changed"
      let products2 := if anyField then saveProduct w.products r.1 else w.products
      let success := true
      let message := product.sku ++ " (" ++ product.name ++ ") " ++
        (if descriptionChanged then "desc" else "skip-desc") ++ " " ++
        (if imageChanged then "img" else "skip-img") ++ " " ++
        (if changeFlag changes "tech_specs_changed" then "specs" else "skip-specs") ++ " " ++
        (if changeFlag changes "pdf_changed" then "pdf" else "skip-pdf") ++ " " ++
        (if changeFlag changes "videos_changed" then "video" else "skip-video") ++ " " ++
        (if changeFlag changes "blog_changed" then "blog" else "skip-blog")
      match findJob jobsStarted jobId with
      | some j =>
          let j2 := finalizeJob j success message descriptionChanged imageChanged
          (⟨products2, saveJob jobsStarted j2⟩, some j2)
      | none => (⟨products2, jobsStarted⟩, none)

/-- `background.py::ProductAssetJobWorker._mark_job_failed`. -/
def markJobFailed (jobs : List AssetJob) (jobId : Nat) (message : String) : List AssetJob :=
  match (jobs.filter (fun j => j.id = jobId)).head? with
  | none => jobs
  | some j =>
      saveJob jobs { j with status := JobStatus.failed, lastMessage := message }

/-- One iteration of `ProductAssetJobWorker.run` on a single-product entry:
an exception escaping `_process` (the `crashed` oracle) is caught and the
job is finalized `failed`; otherwise the entry is processed normally. -/
def workerStep (env : BotEnv) (w : OrchWorld) (jobId : Nat) (productId : Nat)
    (assets : Option (List String)) (force : ForceFlags) (crashed : Bool) : OrchWorld :=
  if crashed then
    { w with jobs := markJobFailed w.jobs jobId "Erreur interne inattendue." }
  else (runProductAssetBot env w productId (some jobId) assets force false).1

/-! ## Content quality agent — `inventory/quality_agent.py` -/

/-- The pixel statistics `_analyze_product_image` extracts from a decoded
image: size, grayscale variance and dynamic range (rationals standing for
the Python floats), and `getcolors(maxcolors=256)` (`none` when the image
holds more than 256 colors). -/
structure DecodedImage where
  width : Nat
  height : Nat
  variance : ℚ
  dynamicRange : ℚ
  uniqueColors : Option Nat

/-- The quality agent's external effect: opening and decoding the stored
image file (`none` models any decode exception). -/
structure QaEnv where
  decode : Product → Option DecodedImage

/-- `quality_agent.py` placeholder filename markers. -/
def placeholderMarkers : List String :=
  ["placeholder", "no-image", "no_image", "dummy", "default", "fallback", "blank"]

/-- `ProductQualityAgent._analyze_product_image` as (status, score):
missing image, explicit placeholder flag, marker filenames, undersized or
banner-shaped, flat, color-poor, borderline, else real. -/
def analyzeProductImage (env : QaEnv) (p : Product) : String × Int :=
  match p.image with
  | none => ("missing", 0)
  | some imageName =>
      if p.imageIsPlaceholder then ("fake", 1)
      else if placeholderMarkers.any (fun m => strContains (pyLower imageName) m) then
        ("fake", 1)
      else
        match env.decode p with
        | none => ("fake", 0)
        | some d =>
            let smallestSide := min d.width d.height
            let aspect : ℚ :=
              if smallestSide = 0 then 999 else (max d.width d.height : ℚ) / smallestSide
            if smallestSide < 120 then ("fake", 1)
            else if 4 < aspect then ("fake", 1)
            else if d.variance < 40 ∨ d.dynamicRange < 55 then ("fake", 2)
            else
              let uniqueCount := match d.uniqueColors with
                | some n => n
                | none => 256
              if uniqueCount < 12 then ("fake", 2)
              else if d.variance < 95 ∨ d.dynamicRange < 85 ∨ uniqueCount < 32 then
                ("suspect", 6)
              else ("real", 10)

/-- `ProductQualityAgent._spec_count`. -/
def specCount : TechSpecs → Nat
  | TechSpecs.dictVal entries =>
      (entries.filter (fun e => pyStrip e.1 ≠ "" ∧ e.2 ≠ none ∧ e.2 ≠ some "")).length
  | TechSpecs.listVal items => (items.filter (fun b => b)).length
  | TechSpecs.otherVal => 0

/-- `ProductQualityReport`. -/
structure QualityReport where
  score : Int
  maxScore : Nat
  details : List (String × Int)
  issues : List String
deriving DecidableEq, Repr

/-- The persistent state visible to the quality agent: the product row and
its related `brochures` rows (represented by their ids). -/
structure QualityWorld where
  product : Product
  brochures : List Nat

/-- `ProductQualityAgent.evaluate`, threading the persistent state it can
see: every step only reads (`w` flows through unchanged), mirroring the
source, which contains no field assignment and no `save`/`create`. -/
def evaluate (env : QaEnv) (w : QualityWorld) : QualityWorld × QualityReport :=
  let p := w.product
  let nameScore : Int := if pyStrip p.name ≠ "" then 15 else 0
  let nameIssues : List String := if nameScore = 0 then ["Nom produit manquant."] else []
  let descriptionLength := (pyStrip p.description).length
  let descriptionScored : Int × List String :=
    if 220 ≤ descriptionLength then (20, [])
    else if 80 ≤ descriptionLength then (12, ["Description principale trop courte."])
    else if 0 < descriptionLength then (6, ["Description principale insuffisante."])
    else (0, ["Description principale absente."])
  let shortLength := (pyStrip p.shortDescription).length
  let shortScored : Int × List String :=
    if 60 ≤ shortLength then (10, [])
    else if 0 < shortLength then (5, ["Description courte a enrichir."])
    else (0, ["Description courte absente."])
  let longLength := (pyStrip p.longDescription).length
  let longScored : Int × List String :=
    if 450 ≤ longLength then (20, [])
    else if 200 ≤ longLength then (12, ["Description longue a approfondir."])
    else if 0 < longLength then (6, ["Description longue trop legere."])
    else (0, ["Description longue absente."])
  let specs := specCount p.techSpecs
  let specsScored : Int × List String :=
    if 8 ≤ specs then (15, [])
    else if 4 ≤ specs then (9, ["Fiche technique partielle."])
    else if 0 < specs then (5, ["Fiche technique incomplete."])
    else (0, ["Fiche technique absente."])
  let imageAnalysis := analyzeProductImage env p
  let imageIssues : List String :=
    if imageAnalysis.1 = "missing" then ["Image produit absente."]
    else if imageAnalysis.1 = "fake" then
      ["Image non exploitable detectee (placeholder/icone). Ajoutez une vraie photo produit."]
    else if imageAnalysis.1 = "suspect" then
      ["Image potentiellement peu exploitable (qualite faible ou visuel trop generique)."]
    else []
  let contentBonus : Int :=
    (if p.datasheetUrl ≠ "" ∨ p.datasheetPdf then 4 else 0) +
    (if p.videoLinks ≠ "" then 3 else 0) +
    (if w.brochures ≠ [] then 3 else 0)
  let contentIssues : List String :=
    if contentBonus < 5 then ["Peu de contenus annexes (PDF, videos, brochures)."] else []
  let details : List (String × Int) :=
    [("name", nameScore), ("description", descriptionScored.1),
     ("short_description", shortScored.1), ("long_description", longScored.1),
     ("tech_specs", specsScored.1), ("image", imageAnalysis.2),
     ("content_assets", contentBonus)]
  let issues := nameIssues ++ descriptionScored.2 ++ shortScored.2 ++ longScored.2 ++
    specsScored.2 ++ imageIssues ++ contentIssues
  (w, ⟨(details.map (fun d => d.2)).sum, 100, details, issues⟩)

/-! ## Theorems -/

/-- A same-day reservation below the limit accepts and increments. -/
theorem reserve_same_day_accepts (dailyLimit : Int) (today : String) (k : Nat)
    (hk : (k : Int) < dailyLimit) :
    DailyQuota.reserve dailyLimit today ⟨some today, k⟩ = (true, ⟨some today, k + 1⟩) := by
  have hN : ¬ dailyLimit ≤ 0 := by
    intro h
    have : (k : Int) < 0 := lt_of_lt_of_le hk h
    omega
  simp [DailyQuota.reserve, hN, not_le.mpr hk]

/-- A same-day reservation at or above the limit rejects and persists
nothing. -/
theorem reserve_same_day_rejects (dailyLimit : Int) (today : String) (k : Nat)
    (hN : 0 < dailyLimit) (hk : dailyLimit ≤ (k : Int)) :
    DailyQuota.reserve dailyLimit today ⟨some today, k⟩ = (false, ⟨some today, k⟩) := by
  simp [DailyQuota.reserve, not_le.mpr hN, hk]

/-- Splitting a run of consecutive reservations. -/
theorem reserveRun_append (dailyLimit : Int) (today : String) :
    ∀ (m n : Nat) (s : QuotaData),
      DailyQuota.reserveRun dailyLimit today (m + n) s =
        ((DailyQuota.reserveRun dailyLimit today m s).1 ++
            (DailyQuota.reserveRun dailyLimit today n
              (DailyQuota.reserveRun dailyLimit today m s).2).1,
          (DailyQuota.reserveRun dailyLimit today n
            (DailyQuota.reserveRun dailyLimit today m s).2).2) := by
  intro m
  induction m with
  | zero => intro n s; simp [DailyQuota.reserveRun]
  | succ m ih =>
      intro n s
      have : m + 1 + n = (m + n) + 1 := by omega
      rw [this]
      simp only [DailyQuota.reserveRun, ih]
      simp

/-- A run that stays under the limit accepts every call. -/
theorem reserveRun_under_limit (dailyLimit : Int) (today : String) :
    ∀ (n k : Nat), ((k + n : Nat) : Int) ≤ dailyLimit →
      DailyQuota.reserveRun dailyLimit today n ⟨some today, k⟩ =
        (List.replicate n true, ⟨some today, k + n⟩) := by
  intro n
  induction n with
  | zero => intro k _; simp [DailyQuota.reserveRun]
  | succ n ih =>
      intro k h
      have hk : (k : Int) < dailyLimit := by push_cast at h ⊢; omega
      have step := reserve_same_day_accepts dailyLimit today k hk
      have rest := ih (k + 1) (by push_cast at h ⊢; omega)
      simp only [DailyQuota.reserveRun, step, rest]
      rw [show k + 1 + n = k + (n + 1) from by omega]
      simp [List.replicate_succ]

/-- C4.  The daily quota tracker (`bot.py::_DailyQuota.reserve`): with a
positive limit `N`, starting from an empty counter file or a same-day zero
counter, exactly `N` consecutive same-day `reserve()` calls accept and the
`(N+1)`-th rejects; a stored date different from today resets the count
(the next reservation accepts and persists count 1); a limit ≤ 0 always
rejects. -/
theorem quota_reserve_daily_limit (dailyLimit : Int) (today d : String) (c : Nat)
    (q : QuotaData) :
    (0 < dailyLimit →
      DailyQuota.reserveRun dailyLimit today (dailyLimit.toNat + 1) emptyQuota =
        (List.replicate dailyLimit.toNat true ++ [false], ⟨some today, dailyLimit.toNat⟩) ∧
      DailyQuota.reserveRun dailyLimit today (dailyLimit.toNat + 1) ⟨some today, 0⟩ =
        (List.replicate dailyLimit.toNat true ++ [false], ⟨some today, dailyLimit.toNat⟩)) ∧
    (0 < dailyLimit → d ≠ today →
      DailyQuota.reserve dailyLimit today ⟨some d, c⟩ = (true, ⟨some today, 1⟩)) ∧
    (dailyLimit ≤ 0 → (DailyQuota.reserve dailyLimit today q).1 = false) := by
  refine ⟨fun hN => ?_, fun hN hd => ?_, fun hN => ?_⟩
  · have hfail := reserve_same_day_rejects dailyLimit today dailyLimit.toNat hN
      (by omega)
    have hone : ∀ s : QuotaData, DailyQuota.reserveRun dailyLimit today 1 s =
        ([(DailyQuota.reserve dailyLimit today s).1],
          (DailyQuota.reserve dailyLimit today s).2) := by
      intro s; simp [DailyQuota.reserveRun]
    have hfromZero : DailyQuota.reserveRun dailyLimit today (dailyLimit.toNat + 1)
        (⟨some today, 0⟩ : QuotaData) =
        (List.replicate dailyLimit.toNat true ++ [false],
          ⟨some today, dailyLimit.toNat⟩) := by
      have hrest : DailyQuota.reserveRun dailyLimit today dailyLimit.toNat
          (⟨some today, 0⟩ : QuotaData) =
          (List.replicate dailyLimit.toNat true, ⟨some today, dailyLimit.toNat⟩) := by
        have := reserveRun_under_limit dailyLimit today dailyLimit.toNat 0 (by omega)
        simpa using this
      rw [reserveRun_append dailyLimit today dailyLimit.toNat 1 ⟨some today, 0⟩, hrest,
        hone, hfail]
    refine ⟨?_, hfromZero⟩
    -- from the empty counter file: the first call resets the stored date
    obtain ⟨m, hm⟩ : ∃ m, dailyLimit.toNat = m + 1 := ⟨dailyLimit.toNat - 1, by omega⟩
    have hfirst : DailyQuota.reserve dailyLimit today emptyQuota =
        (true, ⟨some today, 1⟩) := by
      simp [DailyQuota.reserve, emptyQuota, not_le.mpr hN, hN]
    have htail : DailyQuota.reserveRun dailyLimit today dailyLimit.toNat
        (⟨some today, 1⟩ : QuotaData) =
        (List.replicate m true ++ [false], ⟨some today, dailyLimit.toNat⟩) := by
      have hrest : DailyQuota.reserveRun dailyLimit today m
          (⟨some today, 1⟩ : QuotaData) =
          (List.replicate m true, ⟨some today, dailyLimit.toNat⟩) := by
        have := reserveRun_under_limit dailyLimit today m 1 (by omega)
        rw [show (1 : Nat) + m = dailyLimit.toNat from by omega] at this
        exact this
      rw [hm, reserveRun_append dailyLimit today m 1 ⟨some today, 1⟩, hrest, hone, hfail]
      simp [hm]
    have hstep : DailyQuota.reserveRun dailyLimit today (dailyLimit.toNat + 1) emptyQuota =
        ((DailyQuota.reserve dailyLimit today emptyQuota).1 ::
            (DailyQuota.reserveRun dailyLimit today dailyLimit.toNat
              (DailyQuota.reserve dailyLimit today emptyQuota).2).1,
          (DailyQuota.reserveRun dailyLimit today dailyLimit.toNat
            (DailyQuota.reserve dailyLimit today emptyQuota).2).2) := rfl
    rw [hstep, hfirst]
    simp only [Prod.fst, Prod.snd]
    rw [htail, hm]
    simp [List.replicate_succ]
  · have hd2 : (some d : Option String) ≠ some today := by
      simp [hd]
    simp [DailyQuota.reserve, not_le.mpr hN, hd2, hN]
  · simp [DailyQuota.reserve, hN]

/-- Witness for `quota_reserve_daily_limit` at limit 2. -/
theorem quota_reserve_daily_limit_witness :
    DailyQuota.reserveRun 2 "2026-01-01" 3 emptyQuota =
      ([true, true, false], ⟨some "2026-01-01", 2⟩) ∧
    DailyQuota.reserve 2 "2026-01-01" ⟨some "2025-12-31", 5⟩ =
      (true, ⟨some "2026-01-01", 1⟩) ∧
    (DailyQuota.reserve 0 "2026-01-01" emptyQuota).1 = false := by
  have h := quota_reserve_daily_limit 2 "2026-01-01" "2025-12-31" 5 emptyQuota
  have h0 := quota_reserve_daily_limit 0 "2026-01-01" "2025-12-31" 5 emptyQuota
  refine ⟨?_, h.2.1 (by decide) (by decide), h0.2.2 (by decide)⟩
  have h1 := (h.1 (by decide)).1
  simpa using h1

/-- In the query loop, a Serper call on a query only ever happens after
Google missed that same query (Google configured). -/
theorem findGo_serper_only_after_google_miss (g : String → Option String)
    (os : Option (String → Option String)) (q : String) :
    ∀ l : List String,
      ProviderCall.serper q ∈ (findSearchImageGo ⟨some g, os⟩ l).1 → g q = none := by
  intro l
  induction l with
  | nil => simp [findSearchImageGo]
  | cons q' rest ih =>
      intro hmem
      cases hgq : g q' with
      | some u =>
          have htr : (findSearchImageGo ⟨some g, os⟩ (q' :: rest)).1 =
              [ProviderCall.google q'] := by
            simp [findSearchImageGo, hgq]
          rw [htr] at hmem
          simp at hmem
      | none =>
          cases os with
          | none =>
              have htr : (findSearchImageGo ⟨some g, none⟩ (q' :: rest)).1 =
                  ProviderCall.google q' ::
                    (findSearchImageGo ⟨some g, none⟩ rest).1 := by
                simp [findSearchImageGo, hgq]
              rw [htr] at hmem
              rcases List.mem_cons.mp hmem with h | h
              · simp at h
              · exact ih h
          | some s =>
              cases hsq : s q' with
              | some u =>
                  have htr : (findSearchImageGo ⟨some g, some s⟩ (q' :: rest)).1 =
                      [ProviderCall.google q', ProviderCall.serper q'] := by
                    simp [findSearchImageGo, hgq, hsq]
                  rw [htr] at hmem
                  rcases List.mem_cons.mp hmem with h | h
                  · simp at h
                  · injection List.mem_singleton.mp h with hqq
                    subst hqq
                    exact hgq
              | none =>
                  have htr : (findSearchImageGo ⟨some g, some s⟩ (q' :: rest)).1 =
                      ProviderCall.google q' :: ProviderCall.serper q' ::
                        (findSearchImageGo ⟨some g, some s⟩ rest).1 := by
                    simp [findSearchImageGo, hgq, hsq]
                  rw [htr] at hmem
                  rcases List.mem_cons.mp hmem with h | h
                  · simp at h
                  · rcases List.mem_cons.mp h with h2 | h2
                    · injection h2 with hqq
                      subst hqq
                      exact hgq
                    · exact ih h2

/-- In the query loop with both providers configured, whenever Google was
called on a query and missed, Serper is called on the same query. -/
theorem findGo_google_miss_calls_serper (g s : String → Option String) (q : String) :
    ∀ l : List String,
      ProviderCall.google q ∈ (findSearchImageGo ⟨some g, some s⟩ l).1 → g q = none →
      ProviderCall.serper q ∈ (findSearchImageGo ⟨some g, some s⟩ l).1 := by
  intro l
  induction l with
  | nil => simp [findSearchImageGo]
  | cons q' rest ih =>
      intro hmem hq
      cases hgq : g q' with
      | some u =>
          have htr : (findSearchImageGo ⟨some g, some s⟩ (q' :: rest)).1 =
              [ProviderCall.google q'] := by
            simp [findSearchImageGo, hgq]
          rw [htr] at hmem
          injection List.mem_singleton.mp hmem with hqq
          subst hqq
          rw [hq] at hgq
          exact absurd hgq (by simp)
      | none =>
          cases hsq : s q' with
          | some u =>
              have htr : (findSearchImageGo ⟨some g, some s⟩ (q' :: rest)).1 =
                  [ProviderCall.google q', ProviderCall.serper q'] := by
                simp [findSearchImageGo, hgq, hsq]
              rw [htr] at hmem ⊢
              rcases List.mem_cons.mp hmem with h | h
              · injection h with hqq
                subst hqq
                simp
              · simp at h
          | none =>
              have htr : (findSearchImageGo ⟨some g, some s⟩ (q' :: rest)).1 =
                  ProviderCall.google q' :: ProviderCall.serper q' ::
                    (findSearchImageGo ⟨some g, some s⟩ rest).1 := by
                simp [findSearchImageGo, hgq, hsq]
              rw [htr] at hmem ⊢
              rcases List.mem_cons.mp hmem with h | h
              · injection h with hqq
                subst hqq
                exact List.mem_cons_of_mem _ (List.mem_cons_self _ _)
              · rcases List.mem_cons.mp h with h2 | h2
                · simp at h2
                · exact List.mem_cons_of_mem _ (List.mem_cons_of_mem _ (ih h2 hq))

/-- C6.  Provider fallback order in
`bot.py::ProductAssetBot._find_search_image`: for every query, the
secondary (Serper) provider is never called when the primary (Google)
provider returned a non-empty result for it — a Serper call on a query
implies Google missed it; and whenever Google was called on a query and
missed while Serper is configured, Serper is called with the same
query. -/
theorem router_never_calls_serper_after_google_hit (env : RouterEnv)
    (queries : List String) (maxTries : Nat) (q : String)
    (g s : String → Option String) :
    (env.google = some g →
      ProviderCall.serper q ∈ (findSearchImage env queries maxTries).1 → g q = none) ∧
    (env.google = some g → env.serper = some s →
      ProviderCall.google q ∈ (findSearchImage env queries maxTries).1 → g q = none →
      ProviderCall.serper q ∈ (findSearchImage env queries maxTries).1) := by
  obtain ⟨og, os⟩ := env
  constructor
  · intro hg hmem
    subst hg
    unfold findSearchImage at hmem
    by_cases hq : queries = []
    · simp [hq] at hmem
    · rw [if_neg hq] at hmem
      exact findGo_serper_only_after_google_miss g os q _ hmem
  · intro hg hs hmem hq
    subst hg; subst hs
    unfold findSearchImage at hmem ⊢
    by_cases hq0 : queries = []
    · simp [hq0] at hmem
    · rw [if_neg hq0] at hmem ⊢
      exact findGo_google_miss_calls_serper g s q _ hmem hq

/-- Witness for `router_never_calls_serper_after_google_hit`: a primary
that hits `"q1"` and misses `"q2"`, a secondary always hitting. -/
theorem router_never_calls_serper_after_google_hit_witness :
    (ProviderCall.serper "q1" ∈
        (findSearchImage
          ⟨some (fun q => if q = "q1" then some "u" else none),
            some (fun _ => some "v")⟩ ["q2", "q1"] 2).1 →
      (fun q => if q = "q1" then some "u" else (none : Option String)) "q1" = none) ∧
    ProviderCall.serper "q2" ∈
      (findSearchImage
        ⟨some (fun q => if q = "q1" then some "u" else none),
          some (fun _ => some "v")⟩ ["q2", "q1"] 2).1 := by
  have h := router_never_calls_serper_after_google_hit
    ⟨some (fun q => if q = "q1" then some "u" else none), some (fun _ => some "v")⟩
    ["q2", "q1"] 2 "q2"
    (fun q => if q = "q1" then some "u" else none) (fun _ => some "v")
  have h2 := router_never_calls_serper_after_google_hit
    ⟨some (fun q => if q = "q1" then some "u" else none), some (fun _ => some "v")⟩
    ["q2", "q1"] 2 "q1"
    (fun q => if q = "q1" then some "u" else none) (fun _ => some "v")
  refine ⟨h2.1 rfl, ?_⟩
  exact h.2 rfl rfl (by simp [findSearchImage, findSearchImageGo]) (by simp)

/-- The six asset kinds `ensure_assets` dispatches on. -/
def knownAssetKinds : List String :=
  ["description", "images", "techsheet", "pdf", "videos", "blog"]

/-- For a non-empty all-non-falsy request list, `_normalize_assets` is the
deduplicated trim-lowercase image of the list. -/
theorem normalizeAssets_of_nonempty (l : List String) (hne : l ≠ [])
    (hnonempty : ∀ s ∈ l, s ≠ "") :
    normalizeAssets (some l) = (l.map normalizeAssetItem).dedup := by
  have hfilter : l.filter (fun i => i ≠ "") = l := by
    rw [List.filter_eq_self]
    intro a ha
    simpa using hnonempty a ha
  have hded : (l.map normalizeAssetItem).dedup ≠ [] := by
    intro h0
    rw [List.dedup_eq_nil] at h0
    exact hne (List.map_eq_nil_iff.mp h0)
  simp only [normalizeAssets]
  rw [if_neg hne, hfilter, if_neg hded]

/-- C10.  `bot.py::ProductAssetBot.ensure_assets` /
`_normalize_assets`: a request list whose (non-falsy) entries all
trim-lowercase to strings outside the six known asset kinds runs no
generator — it returns the product unchanged and an empty change-set (for
every choice of generator behaviour); and a `None`, empty, or all-falsy
assets argument normalizes to the default `{description, images}`. -/
theorem ensureAssets_unknown_kinds_no_change (env : BotEnv) (p : Product)
    (l l2 : List String) (force : ForceFlags) (field : ImageField)
    (hne : l ≠ []) (hnonempty : ∀ s ∈ l, s ≠ "")
    (hout : ∀ s ∈ l, normalizeAssetItem s ∉ knownAssetKinds) :
    ensureAssets env p (some l) force field = (p, []) ∧
    normalizeAssets none = ["description", "images"] ∧
    normalizeAssets (some []) = ["description", "images"] ∧
    ((∀ s ∈ l2, s = "") → normalizeAssets (some l2) = ["description", "images"]) := by
  refine ⟨?_, rfl, rfl, fun hall => ?_⟩
  · have hset := normalizeAssets_of_nonempty l hne hnonempty
    have hcontains : ∀ k ∈ knownAssetKinds, k ∉ normalizeAssets (some l) := by
      intro k hk hkmem
      rw [hset, List.mem_dedup] at hkmem
      obtain ⟨s, hs, hsk⟩ := List.mem_map.mp hkmem
      exact hout s hs (hsk ▸ hk)
    have hd := hcontains "description" (by simp [knownAssetKinds])
    have hi := hcontains "images" (by simp [knownAssetKinds])
    have ht := hcontains "techsheet" (by simp [knownAssetKinds])
    have hp := hcontains "pdf" (by simp [knownAssetKinds])
    have hv := hcontains "videos" (by simp [knownAssetKinds])
    have hb := hcontains "blog" (by simp [knownAssetKinds])
    simp [ensureAssets, hd, hi, ht, hp, hv, hb]
  · simp only [normalizeAssets]
    by_cases h2 : l2 = []
    · rw [if_pos h2]
    · rw [if_neg h2]
      have hfilter : l2.filter (fun i => i ≠ "") = [] := by
        rw [List.filter_eq_nil_iff]
        intro a ha
        simp [hall a ha]
      rw [hfilter]
      simp [List.dedup]

/-- Witness for `ensureAssets_unknown_kinds_no_change` on the request
`["Firmware "]` (an unknown kind) and the all-falsy list `["", ""]`. -/
theorem ensureAssets_unknown_kinds_no_change_witness :
    ensureAssets
      ⟨fun p _ => (p, (true, true, true)), fun p _ _ => (p, true),
        fun p _ => (p, true), fun p _ => (p, true), fun p _ => (p, true),
        fun p _ => (p, true)⟩
      ⟨1, "SKU", "name", "", "", "", "", "", TechSpecs.otherVal, "", none, false,
        none, false, "", false⟩
      (some ["Firmware "]) ⟨false, false, false, false, false, false⟩ ImageField.live =
      (⟨1, "SKU", "name", "", "", "", "", "", TechSpecs.otherVal, "", none, false,
        none, false, "", false⟩, []) ∧
    normalizeAssets (some ["", ""]) = ["description", "images"] := by
  have h := ensureAssets_unknown_kinds_no_change
    ⟨fun p _ => (p, (true, true, true)), fun p _ _ => (p, true),
      fun p _ => (p, true), fun p _ => (p, true), fun p _ => (p, true),
      fun p _ => (p, true)⟩
    ⟨1, "SKU", "name", "", "", "", "", "", TechSpecs.otherVal, "", none, false,
      none, false, "", false⟩
    ["Firmware "] ["", ""] ⟨false, false, false, false, false, false⟩ ImageField.live
    (by decide) (by decide) (by decide)
  exact ⟨h.1, h.2.2.2 (by decide)⟩

/-- C9.  `quality_agent.py::ProductQualityAgent.evaluate` is read-only:
threading the persistent state it can see (the product row and its
brochures) through the embedded body leaves it unchanged — the source
contains no field assignment, no `save()` and no row creation, so the
returned state is the input state. -/
theorem evaluate_is_read_only (env : QaEnv) (w : QualityWorld) :
    (evaluate env w).1 = w := rfl

/-- `_start_job` does not change the job's primary key. -/
theorem startJob_id (j : AssetJob) : (startJob j).id = j.id := by
  unfold startJob
  split <;> rfl

/-- A found job satisfies the lookup predicate. -/
theorem findJob_id (jobs : List AssetJob) (jid : Nat) (j : AssetJob)
    (h : findJob jobs (some jid) = some j) : j.id = jid := by
  have h2 : (jobs.filter (fun k => decide (k.id = jid))).head? = some j := h
  have hmem : j ∈ jobs.filter (fun k => decide (k.id = jid)) := by
    cases hfil : jobs.filter (fun k => decide (k.id = jid)) with
    | nil => rw [hfil] at h2; cases h2
    | cons a t =>
        rw [hfil] at h2
        simp only [List.head?_cons, Option.some.injEq] at h2
        exact h2 ▸ List.mem_cons_self a t
  have := List.of_mem_filter hmem
  simpa using this

/-- Looking a job up again after saving a row with the same key yields the
saved row. -/
theorem findJob_after_save (jobs : List AssetJob) (jid : Nat) (j j2 : AssetJob)
    (hfind : findJob jobs (some jid) = some j) (hid : j2.id = j.id) :
    findJob (saveJob jobs j2) (some jid) = some j2 := by
  have hjid : j.id = jid := findJob_id jobs jid j hfind
  induction jobs with
  | nil => simp [findJob] at hfind
  | cons a rest ih =>
      by_cases ha : a.id = jid
      · have haeq : a.id = j2.id := by rw [ha, ← hjid, ← hid]
        simp [findJob, saveJob, List.filter_cons, ha, haeq, hid, hjid]
      · have haeq : ¬ a.id = j2.id := by rw [hid, hjid]; exact ha
        have hfind2 : findJob rest (some jid) = some j := by
          simpa [findJob, List.filter_cons, ha] using hfind
        have := ih hfind2
        simpa [findJob, saveJob, List.filter_cons, ha, haeq] using this

/-- C8.  `product_asset.py::run_product_asset_bot` finalizes: when the
target product exists, the attached job always finalizes `success` with
`processed_products = 1` (the source sets `success = True` in both the
updated and the nothing-to-update branch, for every generator outcome);
the job finalizes `failed` exactly when the product is missing; and an
exception escaping into `background.py::ProductAssetJobWorker.run` marks
the job `failed` (`_mark_job_failed`). -/
theorem runProductAssetBot_finalizes (env : BotEnv) (w : OrchWorld)
    (productId : Nat) (jid : Nat) (assets : Option (List String))
    (force : ForceFlags) (preview : Bool) (j : AssetJob) :
    ((findProduct w.products productId).isSome →
      findJob w.jobs (some jid) = some j →
      ∃ j2, (runProductAssetBot env w productId (some jid) assets force preview).2 =
          some j2 ∧ j2.status = JobStatus.success ∧ j2.processedProducts = 1) ∧
    (findProduct w.products productId = none →
      findJob w.jobs (some jid) = some j →
      ∃ j2, (runProductAssetBot env w productId (some jid) assets force preview).2 =
          some j2 ∧ j2.status = JobStatus.failed) ∧
    (∀ j2, (runProductAssetBot env w productId (some jid) assets force preview).2 =
        some j2 → j2.status = JobStatus.failed →
      findProduct w.products productId = none) ∧
    (findJob w.jobs (some jid) = some j →
      findJob (workerStep env w jid productId assets force true).jobs (some jid) =
        some { j with status := JobStatus.failed, lastMessage := "Erreur interne inattendue." }) := by
  refine ⟨?_, ?_, ?_, ?_⟩
  · intro hp hj
    obtain ⟨product, hprod⟩ := Option.isSome_iff_exists.mp hp
    have hstart : findJob (saveJob w.jobs (startJob j)) (some jid) = some (startJob j) :=
      findJob_after_save w.jobs jid j (startJob j) hj (startJob_id j)
    simp only [runProductAssetBot, hprod, hj, hstart]
    exact ⟨_, rfl, by simp [finalizeJob], by simp [finalizeJob]⟩
  · intro hp hj
    simp only [runProductAssetBot, hp, hj]
    exact ⟨_, rfl, by simp [finalizeJob]⟩
  · intro j2 hj2 hfailed
    cases hprod : findProduct w.products productId with
    | none => rfl
    | some product =>
        exfalso
        cases hjob : findJob w.jobs (some jid) with
        | none =>
            simp only [runProductAssetBot, hprod, hjob] at hj2
            exact Option.noConfusion hj2
        | some jf =>
            have hstart := findJob_after_save w.jobs jid jf (startJob jf) hjob
              (startJob_id jf)
            simp only [runProductAssetBot, hprod, hjob, hstart] at hj2
            injection hj2 with h2
            rw [← h2] at hfailed
            simp [finalizeJob] at hfailed
  · intro hj
    unfold workerStep markJobFailed
    rw [if_pos rfl]
    have hfilter : (w.jobs.filter (fun k => k.id = jid)).head? = some j := hj
    rw [hfilter]
    exact findJob_after_save w.jobs jid j _ hj rfl

/-- Witness for `runProductAssetBot_finalizes`: one product (id 1), one
queued job (id 7); with the product present the job finalizes `success`,
with it absent the job finalizes `failed`, and a worker crash marks it
`failed`. -/
theorem runProductAssetBot_finalizes_witness :
    (∃ j2, (runProductAssetBot
        ⟨fun p _ => (p, (false, false, false)), fun p _ _ => (p, false),
          fun p _ => (p, false), fun p _ => (p, false), fun p _ => (p, false),
          fun p _ => (p, false)⟩
        ⟨[⟨1, "SKU1", "Nom", "", "", "", "", "", TechSpecs.otherVal, "", none, false,
            none, false, "", false⟩],
          [⟨7, 1, JobStatus.queued, ["description"], false, false, false, false, false,
            false, "En file d attente.", 0, false, false⟩]⟩
        1 (some 7) none ⟨false, false, false, false, false, false⟩ false).2 = some j2 ∧
      j2.status = JobStatus.success ∧ j2.processedProducts = 1) ∧
    (∃ j2, (runProductAssetBot
        ⟨fun p _ => (p, (false, false, false)), fun p _ _ => (p, false),
          fun p _ => (p, false), fun p _ => (p, false), fun p _ => (p, false),
          fun p _ => (p, false)⟩
        ⟨[],
          [⟨7, 1, JobStatus.queued, ["description"], false, false, false, false, false,
            false, "En file d attente.", 0, false, false⟩]⟩
        1 (some 7) none ⟨false, false, false, false, false, false⟩ false).2 = some j2 ∧
      j2.status = JobStatus.failed) := by
  have h1 := runProductAssetBot_finalizes
    ⟨fun p _ => (p, (false, false, false)), fun p _ _ => (p, false),
      fun p _ => (p, false), fun p _ => (p, false), fun p _ => (p, false),
      fun p _ => (p, false)⟩
    ⟨[⟨1, "SKU1", "Nom", "", "", "", "", "", TechSpecs.otherVal, "", none, false,
        none, false, "", false⟩],
      [⟨7, 1, JobStatus.queued, ["description"], false, false, false, false, false,
        false, "En file d attente.", 0, false, false⟩]⟩
    1 7 none ⟨false, false, false, false, false, false⟩ false
    ⟨7, 1, JobStatus.queued, ["description"], false, false, false, false, false,
      false, "En file d attente.", 0, false, false⟩
  have h2 := runProductAssetBot_finalizes
    ⟨fun p _ => (p, (false, false, false)), fun p _ _ => (p, false),
      fun p _ => (p, false), fun p _ => (p, false), fun p _ => (p, false),
      fun p _ => (p, false)⟩
    ⟨[],
      [⟨7, 1, JobStatus.queued, ["description"], false, false, false, false, false,
        false, "En file d attente.", 0, false, false⟩]⟩
    1 7 none ⟨false, false, false, false, false, false⟩ false
    ⟨7, 1, JobStatus.queued, ["description"], false, false, false, false, false,
      false, "En file d attente.", 0, false, false⟩
  exact ⟨h1.1 rfl rfl, h2.2.1 rfl rfl⟩

/-- Writing then reading the placeholder flag of the targeted field. -/
theorem getPlaceholderFlag_set (q : Product) (field : ImageField) (v : Bool) :
    getPlaceholderFlag (setPlaceholderFlag q field v) field = v := by
  cases field <;> rfl

/-- C7.  `bot.py::ProductAssetBot.ensure_image` placeholder policy: with
no local file, a candidate URL whose host is on the placeholder-domain
blacklist is rejected (product unchanged, no change reported) unless
placeholders are explicitly allowed; whenever the URL path accepts an
image, the stored placeholder flag equals the blacklist verdict on the
accepted URL — so it is true only for an accepted known placeholder (which
requires `allow_placeholders`) and never for an accepted non-placeholder;
an accepted local file always clears the flag. -/
theorem ensureImage_placeholder_policy (env : ImageEnv) (p : Product) (force : Bool)
    (field : ImageField) :
    (∀ u, env.findLocalImage p = none → candidateImageUrl env p = some u →
      isPlaceholderUrl env.placeholderDomains u = true → env.allowPlaceholders = false →
      ensureImage env p force field = (p, false)) ∧
    (∀ u, env.findLocalImage p = none → candidateImageUrl env p = some u →
      (ensureImage env p force field).2 = true →
      getPlaceholderFlag (ensureImage env p force field).1 field =
        isPlaceholderUrl env.placeholderDomains u ∧
      (isPlaceholderUrl env.placeholderDomains u = true → env.allowPlaceholders = true)) ∧
    (∀ rel, env.findLocalImage p = some rel → (ensureImage env p force field).2 = true →
      getPlaceholderFlag (ensureImage env p force field).1 field = false) := by
  refine ⟨?_, ?_, ?_⟩
  · intro u hlocal hcand hph hallow
    by_cases hskip : (getImageField p field).isSome ∧ ¬ force ∧ ¬ getPlaceholderFlag p field
    · simp [ensureImage, hskip]
    · simp [ensureImage, hskip, hlocal, hcand, hph, hallow]
  · intro u hlocal hcand hchanged
    by_cases hskip : (getImageField p field).isSome ∧ ¬ force ∧ ¬ getPlaceholderFlag p field
    · rw [show ensureImage env p force field = (p, false) from by simp [ensureImage, hskip]]
        at hchanged
      simp at hchanged
    · by_cases hblock : isPlaceholderUrl env.placeholderDomains u = true ∧
          ¬ env.allowPlaceholders = true
      · rw [show ensureImage env p force field = (p, false) from by
            simp [ensureImage, hskip, hlocal, hcand, hblock.1, hblock.2]] at hchanged
        simp at hchanged
      · have hok : isPlaceholderUrl env.placeholderDomains u = true →
            env.allowPlaceholders = true := by
          intro h1
          by_contra h2
          exact hblock ⟨h1, h2⟩
        cases hdl : env.download u with
        | none =>
            rw [show ensureImage env p force field = (p, false) from by
                simp [ensureImage, hskip, hlocal, hcand, hblock, hdl]] at hchanged
            simp at hchanged
        | some resp =>
            by_cases him : isImageResponse resp = true
            · have hskipF : ¬((getImageField p field).isSome = true ∧ force = false ∧
                  getPlaceholderFlag p field = false) := by
                rintro ⟨ha, hb, hc⟩
                exact hskip ⟨ha, by simp [hb], by simp [hc]⟩
              have hblockF : ¬(isPlaceholderUrl env.placeholderDomains u = true ∧
                  env.allowPlaceholders = false) := by
                rintro ⟨ha, hb⟩
                exact hblock ⟨ha, by simp [hb]⟩
              have hres : ensureImage env p force field =
                  (setPlaceholderFlag
                    (setImageField p field (some (env.mkFilename p u))) field
                    (isPlaceholderUrl env.placeholderDomains u), true) := by
                simp [ensureImage, hskipF, hblockF, hlocal, hcand, hdl, him]
              rw [hres]
              exact ⟨getPlaceholderFlag_set _ field _, hok⟩
            · rw [show ensureImage env p force field = (p, false) from by
                  simp [ensureImage, hskip, hlocal, hcand, hblock, hdl, him]] at hchanged
              simp at hchanged
  · intro rel hlocal hchanged
    by_cases hskip : (getImageField p field).isSome ∧ ¬ force ∧ ¬ getPlaceholderFlag p field
    · rw [show ensureImage env p force field = (p, false) from by simp [ensureImage, hskip]]
        at hchanged
      simp at hchanged
    · by_cases hsame : getImageField p field = some rel
      · rw [show ensureImage env p force field = (p, false) from by
            simp [ensureImage, hskip, hlocal, hsame]] at hchanged
        simp at hchanged
      · have hskipF : ¬((getImageField p field).isSome = true ∧ force = false ∧
            getPlaceholderFlag p field = false) := by
          rintro ⟨ha, hb, hc⟩
          exact hskip ⟨ha, by simp [hb], by simp [hc]⟩
        have hres : ensureImage env p force field =
            (setPlaceholderFlag (setImageField p field (some rel)) field false, true) := by
          simp [ensureImage, hskipF, hlocal, hsame]
        rw [hres]
        exact getPlaceholderFlag_set _ field _

/-- Witness for `ensureImage_placeholder_policy`: no local file, no search
providers, template URL `https://placehold.co/1200x1200.png` — blocked by
default, and when downloads succeed with placeholders allowed the stored
flag records the placeholder verdict. -/
theorem ensureImage_placeholder_policy_witness :
    ensureImage
      ⟨false, ["dummyimage.com", "via.placeholder.com", "placehold.co"], ⟨none, none⟩,
        fun _ => ["q"], 1, fun _ => none,
        fun _ => some "https://placehold.co/1200x1200.png",
        fun _ => some ⟨true, "image/png"⟩, fun _ u => u⟩
      ⟨1, "SKU1", "Nom", "", "", "", "", "", TechSpecs.otherVal, "", none, false,
        none, false, "", false⟩
      false ImageField.live =
      (⟨1, "SKU1", "Nom", "", "", "", "", "", TechSpecs.otherVal, "", none, false,
        none, false, "", false⟩, false) ∧
    getPlaceholderFlag
      (ensureImage
        ⟨true, ["dummyimage.com", "via.placeholder.com", "placehold.co"], ⟨none, none⟩,
          fun _ => ["q"], 1, fun _ => none,
          fun _ => some "https://placehold.co/1200x1200.png",
          fun _ => some ⟨true, "image/png"⟩, fun _ u => u⟩
        ⟨1, "SKU1", "Nom", "", "", "", "", "", TechSpecs.otherVal, "", none, false,
          none, false, "", false⟩
        false ImageField.live).1 ImageField.live =
      isPlaceholderUrl ["dummyimage.com", "via.placeholder.com", "placehold.co"]
        "https://placehold.co/1200x1200.png" := by
  have h1 := ensureImage_placeholder_policy
    ⟨false, ["dummyimage.com", "via.placeholder.com", "placehold.co"], ⟨none, none⟩,
      fun _ => ["q"], 1, fun _ => none,
      fun _ => some "https://placehold.co/1200x1200.png",
      fun _ => some ⟨true, "image/png"⟩, fun _ u => u⟩
    ⟨1, "SKU1", "Nom", "", "", "", "", "", TechSpecs.otherVal, "", none, false,
      none, false, "", false⟩
    false ImageField.live
  have h2 := ensureImage_placeholder_policy
    ⟨true, ["dummyimage.com", "via.placeholder.com", "placehold.co"], ⟨none, none⟩,
      fun _ => ["q"], 1, fun _ => none,
      fun _ => some "https://placehold.co/1200x1200.png",
      fun _ => some ⟨true, "image/png"⟩, fun _ u => u⟩
    ⟨1, "SKU1", "Nom", "", "", "", "", "", TechSpecs.otherVal, "", none, false,
      none, false, "", false⟩
    false ImageField.live
  refine ⟨h1.1 "https://placehold.co/1200x1200.png" rfl (by decide) (by decide) rfl, ?_⟩
  exact (h2.2.1 "https://placehold.co/1200x1200.png" rfl (by decide) (by decide)).1

/-- The empty string is `strLtB`-below exactly the non-empty strings. -/
theorem strLtB_empty (n : String) : strLtB "" n = false ↔ n = "" := by
  obtain ⟨data⟩ := n
  cases data with
  | nil => simp [strLtB, chListLt]
  | cons c cs =>
      constructor
      · intro h
        simp [strLtB, chListLt] at h
      · intro h
        have h2 : (c :: cs : List Char) = ([] : List Char) := congrArg String.data h
        exact absurd h2 (by simp)

/-- Nothing is `strLtB`-below the empty string. -/
theorem strLtB_to_empty (n : String) : strLtB n "" = false := by
  obtain ⟨data⟩ := n
  cases data <;> rfl

/-- `chListLt` is asymmetric. -/
theorem chListLt_asymm : ∀ a b : List Char, chListLt a b = true → chListLt b a = false := by
  intro a
  induction a with
  | nil =>
      intro b h
      cases b with
      | nil => simp [chListLt] at h
      | cons y ys => rfl
  | cons x xs ih =>
      intro b h
      cases b with
      | nil => simp [chListLt] at h
      | cons y ys =>
          by_cases h1 : x.toNat < y.toNat
          · have h2 : ¬ y.toNat < x.toNat := Nat.lt_asymm h1
            simp only [chListLt, if_neg h2, if_pos h1]
          · by_cases h2 : y.toNat < x.toNat
            · simp only [chListLt, if_neg h1, if_pos h2] at h
              exact absurd h (by simp)
            · simp only [chListLt, if_neg h1, if_neg h2] at h
              simp only [chListLt, if_neg h1, if_neg h2]
              exact ih ys h

/-- Comparing two signatures agreeing on the numeric triple reduces to the
string tie-break on the normalized category name. -/
theorem sigGt_same_triple (a b c : Nat) (n1 n2 : String) :
    sigGt ⟨a, b, c, n1⟩ ⟨a, b, c, n2⟩ = strLtB n2 n1 := by
  simp [sigGt]

/-- A signature fails to beat the initial `(0, 0, 0, "")` exactly when all
its numeric components are zero and its name is empty. -/
theorem sigGt_init (s : Sig) :
    sigGt s initSig = false ↔
      s.score = 0 ∧ s.matched = 0 ∧ s.bestLen = 0 ∧ s.name = "" := by
  obtain ⟨sc, m, l, n⟩ := s
  simp only [sigGt, initSig]
  split_ifs with h1 h2 h3
  · simp [h1, Nat.pos_of_ne_zero h1]
  · have h1' := not_not.mp (by simpa using h1)
    simp [h1', h2, Nat.pos_of_ne_zero h2]
  · have h1' := not_not.mp (by simpa using h1)
    have h2' := not_not.mp (by simpa using h2)
    simp [h1', h2', h3, Nat.pos_of_ne_zero h3]
  · have h1' := not_not.mp (by simpa using h1)
    have h2' := not_not.mp (by simpa using h2)
    have h3' := not_not.mp (by simpa using h3)
    simp [h1', h2', h3', strLtB_empty]

/-- Once an accumulator holds a rule, the fold keeps holding one. -/
theorem pickFold_some (raw nt : String) (tks : List String) :
    ∀ (l : List Rule) (x : Rule) (s : Sig),
      ((l.foldl (pickStep raw nt tks) (some x, s)).1).isSome = true := by
  intro l
  induction l with
  | nil => intro x s; rfl
  | cons r rest ih =>
      intro x s
      simp only [List.foldl_cons, pickStep]
      by_cases h : sigGt (ruleSig r raw nt tks) s = true
      · rw [if_pos h]; exact ih r _
      · rw [if_neg h]; exact ih x s

/-- The fold yields no rule exactly when no rule's signature beats the
initial one. -/
theorem pickFold_none (raw nt : String) (tks : List String) :
    ∀ l : List Rule,
      ((l.foldl (pickStep raw nt tks) ((none : Option Rule), initSig)).1 = none ↔
        ∀ r ∈ l, sigGt (ruleSig r raw nt tks) initSig = false) := by
  intro l
  induction l with
  | nil => simp
  | cons r rest ih =>
      simp only [List.foldl_cons, pickStep]
      by_cases h : sigGt (ruleSig r raw nt tks) initSig = true
      · rw [if_pos h]
        have hne : (rest.foldl (pickStep raw nt tks) (some r, ruleSig r raw nt tks)).1 ≠
            none := by
          have := pickFold_some raw nt tks rest r (ruleSig r raw nt tks)
          exact Option.isSome_iff_ne_none.mp this
        simp [hne, h]
      · rw [if_neg h]
        have hf : sigGt (ruleSig r raw nt tks) initSig = false := by
          revert h
          cases sigGt (ruleSig r raw nt tks) initSig <;> simp
        simp [ih, hf]

/-- C1 counterexample (claim as stated is false): a single rule whose
keyword does not occur in the text scores 0 against `"abc"`, yet
`_pick_best_rule` selects it, because its signature
`(0, 0, 0, "cameras")` beats the initial `(0, 0, 0, "")` on the name
component. -/
theorem pickBestRule_zero_score_selected :
    (Rule.score ⟨"cameras", ["zzz"], []⟩ "abc" (pyNormalize "abc")
        (pyTokens (pyNormalize "abc"))).1 = 0 ∧
    (pickBestRule [⟨"cameras", ["zzz"], []⟩] "abc").map Rule.categoryName =
      some "cameras" := by
  exact ⟨rfl, rfl⟩

/-- C1 amended.  `category_auto.py::_pick_best_rule` returns no rule iff
every rule scores 0, matches 0 terms, has best-term-length 0 AND has an
empty normalized category name; hence a zero-score rule wins whenever all
rules score zero and some rule has a non-empty normalized category
name. -/
theorem pickBestRule_none_characterization (rules : List Rule) (raw : String) :
    pickBestRule rules raw = none ↔
      ∀ r ∈ rules,
        (r.score raw (pyNormalize raw) (pyTokens (pyNormalize raw))).1 = 0 ∧
        (r.score raw (pyNormalize raw) (pyTokens (pyNormalize raw))).2.1 = 0 ∧
        (r.score raw (pyNormalize raw) (pyTokens (pyNormalize raw))).2.2 = 0 ∧
        pyNormalize r.categoryName = "" := by
  have h0 : pickBestRule rules raw =
      (rules.foldl
        (pickStep raw (pyNormalize raw) (pyTokens (pyNormalize raw)))
        ((none : Option Rule), initSig)).1 := rfl
  rw [h0, pickFold_none]
  constructor
  · intro h r hr
    simpa [ruleSig] using (sigGt_init _).mp (h r hr)
  · intro h r hr
    exact (sigGt_init _).mpr (by simpa [ruleSig] using h r hr)

/-- C2 counterexample (claim as stated is false): two rules with the same
keyword hit and therefore equal score triples; the category names satisfy
`"alpha" < "beta"`, yet in both presentation orders the picker selects
`"beta"` — the lexicographically larger name, not the smaller one. -/
theorem pickBestRule_tie_prefers_larger_name :
    Rule.score ⟨"alpha", ["camera"], []⟩ "camera" (pyNormalize "camera")
        (pyTokens (pyNormalize "camera")) =
      Rule.score ⟨"beta", ["camera"], []⟩ "camera" (pyNormalize "camera")
        (pyTokens (pyNormalize "camera")) ∧
    strLtB "alpha" "beta" = true ∧
    (pickBestRule [⟨"alpha", ["camera"], []⟩, ⟨"beta", ["camera"], []⟩]
        "camera").map Rule.categoryName = some "beta" ∧
    (pickBestRule [⟨"beta", ["camera"], []⟩, ⟨"alpha", ["camera"], []⟩]
        "camera").map Rule.categoryName = some "beta" := by
  exact ⟨rfl, rfl, rfl, rfl⟩

/-- C2 amended.  On a full score-triple tie, `_pick_best_rule` selects the
rule whose *normalized category name is lexicographically larger*, in
either presentation order (so the choice is deterministic — the picker is
a pure function of the rule list and text, and on ties the winner does not
depend on rule order). -/
theorem pickBestRule_tie_selects_larger_name (r1 r2 : Rule) (raw : String)
    (hscore : r1.score raw (pyNormalize raw) (pyTokens (pyNormalize raw)) =
      r2.score raw (pyNormalize raw) (pyTokens (pyNormalize raw)))
    (hlt : strLtB (pyNormalize r1.categoryName) (pyNormalize r2.categoryName) = true) :
    pickBestRule [r1, r2] raw = some r2 ∧ pickBestRule [r2, r1] raw = some r2 := by
  have hn2 : pyNormalize r2.categoryName ≠ "" := by
    intro h0
    rw [h0, strLtB_to_empty] at hlt
    exact absurd hlt (by simp)
  have hs1 : ruleSig r1 raw (pyNormalize raw) (pyTokens (pyNormalize raw)) =
      ⟨(r2.score raw (pyNormalize raw) (pyTokens (pyNormalize raw))).1,
        (r2.score raw (pyNormalize raw) (pyTokens (pyNormalize raw))).2.1,
        (r2.score raw (pyNormalize raw) (pyTokens (pyNormalize raw))).2.2,
        pyNormalize r1.categoryName⟩ := by
    unfold ruleSig
    rw [hscore]
  have hs2 : ruleSig r2 raw (pyNormalize raw) (pyTokens (pyNormalize raw)) =
      ⟨(r2.score raw (pyNormalize raw) (pyTokens (pyNormalize raw))).1,
        (r2.score raw (pyNormalize raw) (pyTokens (pyNormalize raw))).2.1,
        (r2.score raw (pyNormalize raw) (pyTokens (pyNormalize raw))).2.2,
        pyNormalize r2.categoryName⟩ := rfl
  have hsig21 : sigGt (ruleSig r2 raw (pyNormalize raw) (pyTokens (pyNormalize raw)))
      (ruleSig r1 raw (pyNormalize raw) (pyTokens (pyNormalize raw))) = true := by
    rw [hs1, hs2, sigGt_same_triple]
    exact hlt
  have hsig12 : sigGt (ruleSig r1 raw (pyNormalize raw) (pyTokens (pyNormalize raw)))
      (ruleSig r2 raw (pyNormalize raw) (pyTokens (pyNormalize raw))) = false := by
    rw [hs1, hs2, sigGt_same_triple]
    exact chListLt_asymm _ _ hlt
  have hinit2 : sigGt (ruleSig r2 raw (pyNormalize raw) (pyTokens (pyNormalize raw)))
      initSig = true := by
    cases hv : sigGt (ruleSig r2 raw (pyNormalize raw) (pyTokens (pyNormalize raw)))
        initSig
    · exact absurd ((sigGt_init _).mp hv).2.2.2 hn2
    · rfl
  constructor
  · show (pickStep raw (pyNormalize raw) (pyTokens (pyNormalize raw))
      (pickStep raw (pyNormalize raw) (pyTokens (pyNormalize raw))
        ((none : Option Rule), initSig) r1) r2).1 = some r2
    by_cases hinit1 : sigGt
        (ruleSig r1 raw (pyNormalize raw) (pyTokens (pyNormalize raw))) initSig = true
    · rw [show pickStep raw (pyNormalize raw) (pyTokens (pyNormalize raw))
          ((none : Option Rule), initSig) r1 =
          (some r1, ruleSig r1 raw (pyNormalize raw) (pyTokens (pyNormalize raw)))
          from by simp [pickStep, hinit1]]
      simp [pickStep, hsig21]
    · rw [show pickStep raw (pyNormalize raw) (pyTokens (pyNormalize raw))
          ((none : Option Rule), initSig) r1 = ((none : Option Rule), initSig)
          from by simp [pickStep, hinit1]]
      simp [pickStep, hinit2]
  · show (pickStep raw (pyNormalize raw) (pyTokens (pyNormalize raw))
      (pickStep raw (pyNormalize raw) (pyTokens (pyNormalize raw))
        ((none : Option Rule), initSig) r2) r1).1 = some r2
    rw [show pickStep raw (pyNormalize raw) (pyTokens (pyNormalize raw))
        ((none : Option Rule), initSig) r2 =
        (some r2, ruleSig r2 raw (pyNormalize raw) (pyTokens (pyNormalize raw)))
        from by simp [pickStep, hinit2]]
    simp [pickStep, hsig12]

/-- Witness for `pickBestRule_tie_selects_larger_name` on the concrete tie
of the counterexample pair. -/
theorem pickBestRule_tie_selects_larger_name_witness :
    pickBestRule [⟨"alpha", ["camera"], []⟩, ⟨"beta", ["camera"], []⟩] "camera" =
      some ⟨"beta", ["camera"], []⟩ ∧
    pickBestRule [⟨"beta", ["camera"], []⟩, ⟨"alpha", ["camera"], []⟩] "camera" =
      some ⟨"beta", ["camera"], []⟩ := by
  exact pickBestRule_tie_selects_larger_name
    ⟨"alpha", ["camera"], []⟩ ⟨"beta", ["camera"], []⟩ "camera" rfl rfl

/-- C3 counterexample (claim as stated is false): a queued job requested
`["description"]`; a second request for `["images"]` merges into the
pending job, but the stored asset kinds become `["images"]` — the
previously requested `"description"` is dropped, so the kinds are
*replaced*, not unioned. -/
theorem reserve_merge_drops_previous_kind :
    (reserveProductAssetJob
      [⟨7, 1, JobStatus.queued, ["description"], false, false, false, false, false,
        false, "En file d attente.", 0, false, false⟩]
      8 1 ⟨["images"], false, false, false, false, false, false⟩).2.2 = false ∧
    (reserveProductAssetJob
      [⟨7, 1, JobStatus.queued, ["description"], false, false, false, false, false,
        false, "En file d attente.", 0, false, false⟩]
      8 1 ⟨["images"], false, false, false, false, false, false⟩).1.length = 1 ∧
    (reserveProductAssetJob
      [⟨7, 1, JobStatus.queued, ["description"], false, false, false, false, false,
        false, "En file d attente.", 0, false, false⟩]
      8 1 ⟨["images"], false, false, false, false, false, false⟩).2.1.assets =
      ["images"] ∧
    "description" ∉
      (reserveProductAssetJob
        [⟨7, 1, JobStatus.queued, ["description"], false, false, false, false, false,
          false, "En file d attente.", 0, false, false⟩]
        8 1 ⟨["images"], false, false, false, false, false, false⟩).2.1.assets := by
  refine ⟨rfl, rfl, rfl, by decide⟩

/-- The merge result of `reserve_product_asset_job`, field by field: the
request's kinds replace the pending ones when non-empty and different, the
force flags are OR'd, and everything else except the status message is
kept. -/
theorem mergeJobRequest_shape (pending : AssetJob) (req : JobRequest) :
    ∃ msg, mergeJobRequest pending req =
      { id := pending.id, productId := pending.productId, status := pending.status,
        assets := (if req.assets ≠ [] ∧ pending.assets ≠ req.assets then req.assets
          else pending.assets),
        forceDescription := pending.forceDescription || req.forceDescription,
        forceImage := pending.forceImage || req.forceImage,
        forceTechsheet := pending.forceTechsheet || req.forceTechsheet,
        forcePdf := pending.forcePdf || req.forcePdf,
        forceVideos := pending.forceVideos || req.forceVideos,
        forceBlog := pending.forceBlog || req.forceBlog,
        lastMessage := msg,
        processedProducts := pending.processedProducts,
        descriptionChanged := pending.descriptionChanged,
        imageChanged := pending.imageChanged } := by
  simp only [mergeJobRequest]
  split_ifs <;>
    first
      | exact ⟨"Parametres de traitement mis a jour.", rfl⟩
      | (rename_i hout
         exact ⟨pending.lastMessage, (not_not.mp hout).symm⟩)

/-- C3 amended.  `product_asset.py::reserve_product_asset_job`: while a
job for the product is queued or running, a new request never creates a
second row (the table keeps its length and `created = False`); the per
asset force flags are OR'd into the pending job; but the requested asset
kinds *replace* the pending job's kinds whenever the request list is
non-empty and different (they are not unioned). -/
theorem reserveProductAssetJob_merges_into_pending (db : List AssetJob)
    (newId productId : Nat) (req : JobRequest) (pending : AssetJob)
    (hp : getPendingProductAssetJob db productId = some pending) :
    (reserveProductAssetJob db newId productId req).1.length = db.length ∧
    (reserveProductAssetJob db newId productId req).2.2 = false ∧
    (reserveProductAssetJob db newId productId req).2.1.assets =
      (if req.assets ≠ [] ∧ pending.assets ≠ req.assets then req.assets
        else pending.assets) ∧
    (reserveProductAssetJob db newId productId req).2.1.forceDescription =
      (pending.forceDescription || req.forceDescription) ∧
    (reserveProductAssetJob db newId productId req).2.1.forceImage =
      (pending.forceImage || req.forceImage) ∧
    (reserveProductAssetJob db newId productId req).2.1.forceTechsheet =
      (pending.forceTechsheet || req.forceTechsheet) ∧
    (reserveProductAssetJob db newId productId req).2.1.forcePdf =
      (pending.forcePdf || req.forcePdf) ∧
    (reserveProductAssetJob db newId productId req).2.1.forceVideos =
      (pending.forceVideos || req.forceVideos) ∧
    (reserveProductAssetJob db newId productId req).2.1.forceBlog =
      (pending.forceBlog || req.forceBlog) := by
  have hres : reserveProductAssetJob db newId productId req =
      (saveJob db (mergeJobRequest pending req), mergeJobRequest pending req, false) := by
    unfold reserveProductAssetJob
    rw [hp]
  obtain ⟨msg, hshape⟩ := mergeJobRequest_shape pending req
  rw [hres, hshape]
  exact ⟨by simp [saveJob], rfl, rfl, rfl, rfl, rfl, rfl, rfl, rfl⟩

/-- Witness for `reserveProductAssetJob_merges_into_pending` on the
counterexample table. -/
theorem reserveProductAssetJob_merges_into_pending_witness :
    (reserveProductAssetJob
      [⟨7, 1, JobStatus.queued, ["description"], false, false, false, false, false,
        false, "En file d attente.", 0, false, false⟩]
      8 1 ⟨["images"], true, false, false, false, false, false⟩).1.length = 1 ∧
    (reserveProductAssetJob
      [⟨7, 1, JobStatus.queued, ["description"], false, false, false, false, false,
        false, "En file d attente.", 0, false, false⟩]
      8 1 ⟨["images"], true, false, false, false, false, false⟩).2.2 = false := by
  have h := reserveProductAssetJob_merges_into_pending
    [⟨7, 1, JobStatus.queued, ["description"], false, false, false, false, false,
      false, "En file d attente.", 0, false, false⟩]
    8 1 ⟨["images"], true, false, false, false, false, false⟩
    ⟨7, 1, JobStatus.queued, ["description"], false, false, false, false, false,
      false, "En file d attente.", 0, false, false⟩
    rfl
  exact ⟨h.1, h.2.1⟩

/-- A non-negative bonus step never decreases the score. -/
theorem addIfB_lower (b : Bool) (k s : Int) (hk : 0 ≤ k) : s ≤ addIfB b k s := by
  unfold addIfB
  split_ifs <;> omega

/-- A penalty step loses at most its amount. -/
theorem addIfB_penalty (b : Bool) (k s : Int) (hk : k ≤ 0) : s + k ≤ addIfB b k s := by
  unfold addIfB
  split_ifs <;> omega

/-- A non-negative conditional bonus never decreases the score. -/
theorem addIfP_lower (p : Prop) [Decidable p] (k s : Int) (hk : 0 ≤ k) :
    s ≤ addIfP p k s := by
  unfold addIfP
  split_ifs <;> omega

/-- The language bonus never decreases the score. -/
theorem langBonus_lower (preferLang url blob : String) (s : Int) :
    s ≤ langBonus preferLang url blob s := by
  unfold langBonus
  split_ifs
  · exact addIfB_lower _ _ _ (by omega)
  · exact addIfB_lower _ _ _ (by omega)
  · exact le_refl s

/-- Every heuristic score is at least −60 (the two penalties on top of
non-negative bonuses), far above the `-10^9` fold seed. -/
theorem score_result_lower_bound (item : SearchItem) (model preferLang : String) :
    -60 ≤ score_result item model preferLang := by
  show -60 ≤
    addIfB (strContains (pyLower (item.link.getD "") ++ " " ++ pyLower item.title ++ " " ++
        pyLower item.snippet) "manual" ||
      strContains (pyLower (item.link.getD "") ++ " " ++ pyLower item.title ++ " " ++
        pyLower item.snippet) "user manual") (-20)
    (addIfB (strContains (pyLower (item.link.getD "") ++ " " ++ pyLower item.title ++ " " ++
        pyLower item.snippet) "firmware") (-40)
      (langBonus preferLang (pyLower (item.link.getD ""))
        (pyLower (item.link.getD "") ++ " " ++ pyLower item.title ++ " " ++
          pyLower item.snippet)
        (addIfP (normalizeModel model ≠ "" ∧
            strContains (normalizeModel (pyLower (item.link.getD "") ++ pyLower item.title))
              (normalizeModel model) = true) 50
          (addIfB (strContains (pyLower (item.link.getD "") ++ " " ++ pyLower item.title ++
              " " ++ pyLower item.snippet) "datasheet" ||
            strContains (pyLower (item.link.getD "") ++ " " ++ pyLower item.title ++ " " ++
              pyLower item.snippet) "data sheet" ||
            strContains (pyLower (item.link.getD "") ++ " " ++ pyLower item.title ++ " " ++
              pyLower item.snippet) "fiche") 20
            (addIfB (strContains (pyLower (item.link.getD "")) "hikvision.com") 30
              (addIfP (pyLower item.mime = "application/pdf") 15
                (addIfB (endsWithB (pyLower (item.link.getD "")) ".pdf" ||
                  strContains (pyLower (item.link.getD "")) ".pdf?") 50 0)))))))
  have h1 := addIfB_lower (endsWithB (pyLower (item.link.getD "")) ".pdf" ||
    strContains (pyLower (item.link.getD "")) ".pdf?") 50 0 (by omega)
  have h2 := addIfP_lower (pyLower item.mime = "application/pdf") 15
    (addIfB (endsWithB (pyLower (item.link.getD "")) ".pdf" ||
      strContains (pyLower (item.link.getD "")) ".pdf?") 50 0) (by omega)
  have h3 := addIfB_lower (strContains (pyLower (item.link.getD "")) "hikvision.com") 30
    (addIfP (pyLower item.mime = "application/pdf") 15
      (addIfB (endsWithB (pyLower (item.link.getD "")) ".pdf" ||
        strContains (pyLower (item.link.getD "")) ".pdf?") 50 0)) (by omega)
  have h4 := addIfB_lower (strContains (pyLower (item.link.getD "") ++ " " ++
      pyLower item.title ++ " " ++ pyLower item.snippet) "datasheet" ||
    strContains (pyLower (item.link.getD "") ++ " " ++ pyLower item.title ++ " " ++
      pyLower item.snippet) "data sheet" ||
    strContains (pyLower (item.link.getD "") ++ " " ++ pyLower item.title ++ " " ++
      pyLower item.snippet) "fiche") 20
    (addIfB (strContains (pyLower (item.link.getD "")) "hikvision.com") 30
      (addIfP (pyLower item.mime = "application/pdf") 15
        (addIfB (endsWithB (pyLower (item.link.getD "")) ".pdf" ||
          strContains (pyLower (item.link.getD "")) ".pdf?") 50 0))) (by omega)
  have h5 := addIfP_lower (normalizeModel model ≠ "" ∧
      strContains (normalizeModel (pyLower (item.link.getD "") ++ pyLower item.title))
        (normalizeModel model) = true) 50
    (addIfB (strContains (pyLower (item.link.getD "") ++ " " ++ pyLower item.title ++
        " " ++ pyLower item.snippet) "datasheet" ||
      strContains (pyLower (item.link.getD "") ++ " " ++ pyLower item.title ++ " " ++
        pyLower item.snippet) "data sheet" ||
      strContains (pyLower (item.link.getD "") ++ " " ++ pyLower item.title ++ " " ++
        pyLower item.snippet) "fiche") 20
      (addIfB (strContains (pyLower (item.link.getD "")) "hikvision.com") 30
        (addIfP (pyLower item.mime = "application/pdf") 15
          (addIfB (endsWithB (pyLower (item.link.getD "")) ".pdf" ||
            strContains (pyLower (item.link.getD "")) ".pdf?") 50 0)))) (by omega)
  have h6 := langBonus_lower preferLang (pyLower (item.link.getD ""))
    (pyLower (item.link.getD "") ++ " " ++ pyLower item.title ++ " " ++ pyLower item.snippet)
    (addIfP (normalizeModel model ≠ "" ∧
        strContains (normalizeModel (pyLower (item.link.getD "") ++ pyLower item.title))
          (normalizeModel model) = true) 50
      (addIfB (strContains (pyLower (item.link.getD "") ++ " " ++ pyLower item.title ++
          " " ++ pyLower item.snippet) "datasheet" ||
        strContains (pyLower (item.link.getD "") ++ " " ++ pyLower item.title ++ " " ++
          pyLower item.snippet) "data sheet" ||
        strContains (pyLower (item.link.getD "") ++ " " ++ pyLower item.title ++ " " ++
          pyLower item.snippet) "fiche") 20
        (addIfB (strContains (pyLower (item.link.getD "")) "hikvision.com") 30
          (addIfP (pyLower item.mime = "application/pdf") 15
            (addIfB (endsWithB (pyLower (item.link.getD "")) ".pdf" ||
              strContains (pyLower (item.link.getD "")) ".pdf?") 50 0)))))
  have h7 := addIfB_penalty (strContains (pyLower (item.link.getD "") ++ " " ++
      pyLower item.title ++ " " ++ pyLower item.snippet) "firmware") (-40)
    (langBonus preferLang (pyLower (item.link.getD ""))
      (pyLower (item.link.getD "") ++ " " ++ pyLower item.title ++ " " ++
        pyLower item.snippet)
      (addIfP (normalizeModel model ≠ "" ∧
          strContains (normalizeModel (pyLower (item.link.getD "") ++ pyLower item.title))
            (normalizeModel model) = true) 50
        (addIfB (strContains (pyLower (item.link.getD "") ++ " " ++ pyLower item.title ++
            " " ++ pyLower item.snippet) "datasheet" ||
          strContains (pyLower (item.link.getD "") ++ " " ++ pyLower item.title ++ " " ++
            pyLower item.snippet) "data sheet" ||
          strContains (pyLower (item.link.getD "") ++ " " ++ pyLower item.title ++ " " ++
            pyLower item.snippet) "fiche") 20
          (addIfB (strContains (pyLower (item.link.getD "")) "hikvision.com") 30
            (addIfP (pyLower item.mime = "application/pdf") 15
              (addIfB (endsWithB (pyLower (item.link.getD "")) ".pdf" ||
                strContains (pyLower (item.link.getD "")) ".pdf?") 50 0)))))) (by omega)
  have h8 := addIfB_penalty (strContains (pyLower (item.link.getD "") ++ " " ++
      pyLower item.title ++ " " ++ pyLower item.snippet) "manual" ||
    strContains (pyLower (item.link.getD "") ++ " " ++ pyLower item.title ++ " " ++
      pyLower item.snippet) "user manual") (-20)
    (addIfB (strContains (pyLower (item.link.getD "") ++ " " ++ pyLower item.title ++
        " " ++ pyLower item.snippet) "firmware") (-40)
      (langBonus preferLang (pyLower (item.link.getD ""))
        (pyLower (item.link.getD "") ++ " " ++ pyLower item.title ++ " " ++
          pyLower item.snippet)
        (addIfP (normalizeModel model ≠ "" ∧
            strContains (normalizeModel (pyLower (item.link.getD "") ++ pyLower item.title))
              (normalizeModel model) = true) 50
          (addIfB (strContains (pyLower (item.link.getD "") ++ " " ++ pyLower item.title ++
              " " ++ pyLower item.snippet) "datasheet" ||
            strContains (pyLower (item.link.getD "") ++ " " ++ pyLower item.title ++ " " ++
              pyLower item.snippet) "data sheet" ||
            strContains (pyLower (item.link.getD "") ++ " " ++ pyLower item.title ++ " " ++
              pyLower item.snippet) "fiche") 20
            (addIfB (strContains (pyLower (item.link.getD "")) "hikvision.com") 30
              (addIfP (pyLower item.mime = "application/pdf") 15
                (addIfB (endsWithB (pyLower (item.link.getD "")) ".pdf" ||
                  strContains (pyLower (item.link.getD "")) ".pdf?") 50 0))))))) (by omega)
  omega

/-- C5 counterexample (claim as stated is false): two hits, both
firmware/manual-flagged (negative-leaning scores, no plain match), yet
`pick_best_pdf` does not return `None` — there is no clearing threshold,
it returns the better penalized link. -/
theorem pick_best_pdf_penalized_still_selected :
    strContains (pyLower "https://x.com/firmware.pdf" ++ " " ++ pyLower "firmware update"
      ++ " " ++ pyLower "") "firmware" = true ∧
    strContains (pyLower "https://x.com/user-manual.pdf" ++ " " ++ pyLower "user manual"
      ++ " " ++ pyLower "") "manual" = true ∧
    pick_best_pdf
      [⟨some "https://x.com/firmware.pdf", "firmware update", "", ""⟩,
        ⟨some "https://x.com/user-manual.pdf", "user manual", "", ""⟩]
      "DS-2CD" "fr" = some "https://x.com/user-manual.pdf" := by
  exact ⟨rfl, rfl, rfl⟩

/-- The `pick_best_pdf` fold either keeps its accumulator (when nothing
beats it) or returns the first list element reaching the running
maximum. -/
theorem pickPdf_fold_spec (model preferLang : String) :
    ∀ (l : List SearchItem) (acc : Option String × Int),
      (l.foldl (pickPdfStep model preferLang) acc = acc ∧
        ∀ x ∈ l, score_result x model preferLang ≤ acc.2) ∨
      (∃ pre it post, l = pre ++ it :: post ∧
        l.foldl (pickPdfStep model preferLang) acc =
          (it.link, score_result it model preferLang) ∧
        acc.2 < score_result it model preferLang ∧
        (∀ x ∈ l, score_result x model preferLang ≤ score_result it model preferLang) ∧
        (∀ x ∈ pre, score_result x model preferLang < score_result it model preferLang)) := by
  intro l
  induction l with
  | nil => intro acc; exact Or.inl ⟨rfl, by simp⟩
  | cons a rest ih =>
      intro acc
      by_cases ha : acc.2 < score_result a model preferLang
      · have hstep : pickPdfStep model preferLang acc a =
            (a.link, score_result a model preferLang) := by
          simp [pickPdfStep, ha]
        rcases ih (a.link, score_result a model preferLang) with
          ⟨hfold, hbound⟩ | ⟨pre, it, post, hsplit, hfold, hacc, hball, hpre⟩
        · refine Or.inr ⟨[], a, rest, by simp, ?_, ha, ?_, by simp⟩
          · simp only [List.foldl_cons, hstep]
            exact hfold
          · intro x hx
            rcases List.mem_cons.mp hx with rfl | hx
            · exact le_refl _
            · exact hbound x hx
        · refine Or.inr ⟨a :: pre, it, post, ?_, ?_, ?_, ?_, ?_⟩
          · rw [hsplit, List.cons_append]
          · simp only [List.foldl_cons, hstep]
            exact hfold
          · exact lt_trans ha hacc
          · intro x hx
            rcases List.mem_cons.mp hx with rfl | hx
            · exact le_of_lt hacc
            · exact hball x hx
          · intro x hx
            rcases List.mem_cons.mp hx with rfl | hx
            · exact hacc
            · exact hpre x hx
      · have hstep : pickPdfStep model preferLang acc a = acc := by
          simp [pickPdfStep, ha]
        have hale : score_result a model preferLang ≤ acc.2 := not_lt.mp ha
        rcases ih acc with
          ⟨hfold, hbound⟩ | ⟨pre, it, post, hsplit, hfold, hacc, hball, hpre⟩
        · refine Or.inl ⟨?_, ?_⟩
          · simp only [List.foldl_cons, hstep]
            exact hfold
          · intro x hx
            rcases List.mem_cons.mp hx with rfl | hx
            · exact hale
            · exact hbound x hx
        · refine Or.inr ⟨a :: pre, it, post, ?_, ?_, hacc, ?_, ?_⟩
          · rw [hsplit, List.cons_append]
          · simp only [List.foldl_cons, hstep]
            exact hfold
          · intro x hx
            rcases List.mem_cons.mp hx with rfl | hx
            · exact le_trans hale (le_of_lt hacc)
            · exact hball x hx
          · intro x hx
            rcases List.mem_cons.mp hx with rfl | hx
            · exact lt_of_le_of_lt hale hacc
            · exact hpre x hx

/-- C5 amended.  `datasheets.py::pick_best_pdf` returns the link of the
first-seen candidate attaining the highest heuristic score — ties keep the
first-seen candidate (every earlier candidate scores strictly lower) —
for *every* non-empty result list, including one holding only
firmware/manual-penalized hits: there is no clearing threshold, and `None`
is only returned for an empty list (or a winning hit without a link). -/
theorem pick_best_pdf_first_seen_max (items : List SearchItem)
    (model preferLang : String) (h : items ≠ []) :
    ∃ pre it post, items = pre ++ it :: post ∧
      pick_best_pdf items model preferLang = it.link ∧
      (∀ x ∈ items, score_result x model preferLang ≤ score_result it model preferLang) ∧
      (∀ x ∈ pre, score_result x model preferLang < score_result it model preferLang) := by
  rcases pickPdf_fold_spec model preferLang items ((none : Option String), -(10 ^ 9 : Int))
    with ⟨hfold, hbound⟩ | ⟨pre, it, post, hsplit, hfold, _, hball, hpre⟩
  · exfalso
    cases items with
    | nil => exact h rfl
    | cons a rest =>
        have h1 := hbound a (List.mem_cons_self a rest)
        have h2 := score_result_lower_bound a model preferLang
        omega
  · refine ⟨pre, it, post, hsplit, ?_, hball, hpre⟩
    show (items.foldl (pickPdfStep model preferLang)
      ((none : Option String), -(10 ^ 9 : Int))).1 = it.link
    rw [hfold]

/-- Witness for `pick_best_pdf_first_seen_max` on the penalized-only
candidate list of the counterexample. -/
theorem pick_best_pdf_first_seen_max_witness :
    ∃ pre it post,
      ([⟨some "https://x.com/firmware.pdf", "firmware update", "", ""⟩,
          ⟨some "https://x.com/user-manual.pdf", "user manual", "", ""⟩] :
        List SearchItem) = pre ++ it :: post ∧
      pick_best_pdf
        [⟨some "https://x.com/firmware.pdf", "firmware update", "", ""⟩,
          ⟨some "https://x.com/user-manual.pdf", "user manual", "", ""⟩]
        "DS-2CD" "fr" = it.link ∧
      (∀ x ∈ ([⟨some "https://x.com/firmware.pdf", "firmware update", "", ""⟩,
          ⟨some "https://x.com/user-manual.pdf", "user manual", "", ""⟩] :
        List SearchItem), score_result x "DS-2CD" "fr" ≤ score_result it "DS-2CD" "fr") ∧
      (∀ x ∈ pre, score_result x "DS-2CD" "fr" < score_result it "DS-2CD" "fr") := by
  exact pick_best_pdf_first_seen_max
    [⟨some "https://x.com/firmware.pdf", "firmware update", "", ""⟩,
      ⟨some "https://x.com/user-manual.pdf", "user manual", "", ""⟩]
    "DS-2CD" "fr" (by simp)

end GestionStock
